import Mathlib

/-!
Verification of the docmind-desktop service-orchestration core.

This file gives a shallow embedding of the host-side orchestration layer:
the feature gate (src/main/services/feature-gate-manager.ts), the managed
sidecars (PythonSidecar, QdrantSidecar), the streaming chat relay
(ipc-handlers.ts, CHAT_SEND handler) and the offline license service
(src/main/services/license-activation.ts), together with proofs about the
spec-level claims made of that code.

JavaScript strings are modelled as Lean lists of characters where the
license code manipulates them, and Node primitives that are not part of
the repository (crypto.createHmac, AbortController, fetch) are modelled
as parameters respectively as labelled transitions.
-/

namespace Docmind

-- ════════════════════════════════════════════════════════════════════
-- Shared types (src/shared/types.ts)
-- ════════════════════════════════════════════════════════════════════

/-- The subscription tiers, from `export type SubscriptionTier = 'free' | 'pro' | 'team'`. -/
inductive SubscriptionTier
  | free
  | pro
  | team
deriving DecidableEq, Repr

/-- The names of the members of the declared SubscriptionTier union type,
in ascending order (src/shared/types.ts line 313). -/
def subscriptionTierNames : List String := ["free", "pro", "team"]

/-- Service status union: `'starting' | 'healthy' | 'unhealthy' | 'stopped'`. -/
inductive ServiceStatus
  | starting
  | healthy
  | unhealthy
  | stopped
deriving DecidableEq, Repr

/-- ServiceInfo record returned by the sidecar getStatus methods. -/
structure ServiceInfo where
  name : String
  status : ServiceStatus
  url : String
deriving DecidableEq, Repr

/-- FeatureGateResult record (src/shared/types.ts). -/
structure FeatureGateResult where
  allowed : Bool
  reason : Option String
  requiredTier : Option SubscriptionTier
deriving DecidableEq, Repr

-- ════════════════════════════════════════════════════════════════════
-- Feature gate (src/main/services/feature-gate-manager.ts)
-- ════════════════════════════════════════════════════════════════════

/-- Numeric tier levels for comparison, `TIER_LEVEL` (lines 22-26). -/
def TIER_LEVEL : SubscriptionTier → Nat
  | .free => 0
  | .pro => 1
  | .team => 2

/-- The static feature-to-minimum-tier map `FEATURE_MIN_TIER` (lines 34-52);
features absent from the map yield none. -/
def FEATURE_MIN_TIER : String → Option SubscriptionTier
  | "folder-import" => some .pro
  | "drag-drop-import" => some .pro
  | "chat-export" => some .pro
  | "unlimited-documents" => some .pro
  | "auto-update-install" => some .pro
  | "cloud-apis" => some .pro
  | "agentic-rag" => some .pro
  | "mcp-integration" => some .pro
  | "prompt-templates" => some .pro
  | "team-workspaces" => some .team
  | "shared-knowledge-base" => some .team
  | "rbac" => some .team
  | "usage-tracking" => some .team
  | "audit-logs" => some .team
  | "sso" => some .team
  | _ => none

/-- Human-readable feature names `FEATURE_LABELS` (lines 55-71). -/
def FEATURE_LABELS : String → String
  | "folder-import" => "Ordner-Import"
  | "drag-drop-import" => "Drag & Drop Import"
  | "chat-export" => "Chat Export"
  | "unlimited-documents" => "Unbegrenzte Dokumente"
  | "auto-update-install" => "Auto-Update Installation"
  | "cloud-apis" => "Cloud APIs (Claude, GPT, Gemini)"
  | "agentic-rag" => "Agentic RAG"
  | "mcp-integration" => "MCP Integration"
  | "prompt-templates" => "Prompt Templates"
  | "team-workspaces" => "Team Workspaces"
  | "shared-knowledge-base" => "Shared Knowledge Base"
  | "rbac" => "Rollen & Berechtigungen"
  | "usage-tracking" => "Usage Tracking"
  | "audit-logs" => "Audit Logs"
  | "sso" => "SSO (OAuth/SAML)"
  | _ => ""

/-- Human-readable tier names `TIER_LABELS` (lines 74-78). -/
def TIER_LABELS : SubscriptionTier → String
  | .free => "Free"
  | .pro => "Pro"
  | .team => "Team"

/-- `FeatureGateManager.checkFeature` (lines 97-116): features absent from
the map are allowed; otherwise allowed iff the numeric level of the current
tier is at least the level of the required tier, and a denial carries the
human-readable reason string and the required tier. -/
def checkFeature (tier : SubscriptionTier) (feature : String) : FeatureGateResult :=
  match FEATURE_MIN_TIER feature with
  | none => { allowed := true, reason := none, requiredTier := none }
  | some requiredTier =>
    if TIER_LEVEL tier ≥ TIER_LEVEL requiredTier then
      { allowed := true, reason := none, requiredTier := none }
    else
      { allowed := false
        reason := some (FEATURE_LABELS feature ++ " erfordert Docmind " ++ TIER_LABELS requiredTier)
        requiredTier := some requiredTier }

-- ════════════════════════════════════════════════════════════════════
-- Managed sidecars (python-sidecar.ts, qdrant-sidecar.ts)
-- ════════════════════════════════════════════════════════════════════

/-- The in-memory state of one managed sidecar: the healthy flag and
whether the owned process handle is present (process !== null). -/
structure SidecarState where
  healthy : Bool
  hasProcess : Bool
deriving DecidableEq, Repr

/-- Status derivation shared by PythonSidecar.getStatus (lines 477-483)
and QdrantSidecar.getStatus (part_013 lines 605-611):
healthy flag set yields healthy, else a live process handle yields
starting, else stopped. -/
def sidecarStatus (s : SidecarState) : ServiceStatus :=
  if s.healthy then .healthy else if s.hasProcess then .starting else .stopped

/-- PythonSidecar.getStatus. -/
def pythonGetStatus (s : SidecarState) : ServiceInfo :=
  { name := "python", status := sidecarStatus s, url := "http://127.0.0.1:8001" }

/-- QdrantSidecar.getStatus. -/
def qdrantGetStatus (s : SidecarState) : ServiceInfo :=
  { name := "qdrant", status := sidecarStatus s, url := "http://127.0.0.1:6333" }

/-- A push event sent over the service:crashed channel, carrying the
service name and the exit code. -/
structure CrashEvent where
  service : String
  exitCode : Option Int
deriving DecidableEq, Repr

/-- The crash predicate of the Python exit handler:
`const wasCrash = code !== 0 && code !== null`. -/
def wasCrash : Option Int → Bool
  | none => false
  | some c => c ≠ 0

/-- The exit handler registered by PythonSidecar.start (lines 433-446):
it clears the healthy flag and the process handle, and when the exit code
is neither 0 nor null it sends a service:crashed event to every open
window in the same step. Windows are identified by numbers. -/
def pythonOnExit (wins : List Nat) (_s : SidecarState) (code : Option Int) :
    SidecarState × List (Nat × CrashEvent) :=
  ({ healthy := false, hasProcess := false },
   if wasCrash code then wins.map (fun w => (w, ⟨"python", code⟩)) else [])

/-- The exit handler registered by QdrantSidecar.start (part_013 lines
568-572): it clears the healthy flag and the process handle and emits
nothing. -/
def qdrantOnExit (_wins : List Nat) (_s : SidecarState) (_code : Option Int) :
    SidecarState × List (Nat × CrashEvent) :=
  ({ healthy := false, hasProcess := false }, [])

-- ════════════════════════════════════════════════════════════════════
-- Streaming chat relay (src/main/ipc-handlers.ts, CHAT_SEND handler,
-- part_011 lines 214-336)
-- ════════════════════════════════════════════════════════════════════

/-- Payload of a successfully JSON-parsed SSE record, discriminated on the
type field exactly as the handler does (part_011 lines 294-302); records
with an unrecognised type fall through silently. -/
inductive SSEData
  | token (content : String)
  | sources (payload : Nat)
  | done (sessionId : Option String)
  | errorData (content : String)
  | other
deriving DecidableEq, Repr

/-- One line produced by splitting the decoded buffer on newlines:
either it does not start with the data marker (skipped before parsing),
or JSON.parse fails on it (malformed), or it parses into a record. -/
inductive SSELine
  | noData
  | malformed
  | record (d : SSEData)
deriving DecidableEq, Repr

/-- A push event forwarded to the renderer over the chat channels
(chat:chunk, chat:sources, chat:complete, chat:error). -/
inductive ChatEvent
  | chunk (content : String)
  | sources (payload : Nat)
  | complete (sessionId : Option String)
  | errorEvent (content : String)
deriving DecidableEq, Repr

/-- Events forwarded for one parsed record (part_011 lines 294-302). -/
def dispatchData : SSEData → List ChatEvent
  | .token c => [.chunk c]
  | .sources p => [.sources p]
  | .done sid => [.complete sid]
  | .errorData c => [.errorEvent c]
  | .other => []

/-- The malformed-line tolerance bound: `if (malformedCount > 20)`. -/
def MALFORMED_BOUND : Nat := 20

/-- Error thrown when the bound is exceeded (part_011 line 309). -/
def malformedMsg : String := "SSE stream aborted: too many malformed lines"

/-- Error thrown when a read wins no race against the idle timer
(part_011 line 268). -/
def timeoutMsg : String := "SSE stream timeout: no data for 30s"

/-- Error raised for a non-2xx upstream response (part_011 line 246 and
the postJSON/getJSON helpers): HTTP status plus response body. -/
def httpErrorMsg (status : Nat) (text : String) : String :=
  "HTTP " ++ toString status ++ ": " ++ text

/-- The for-loop over the lines of one decoded chunk (part_011 lines
286-312), threading the malformed counter: a line without the data marker
is skipped, a parsed record is forwarded, and a malformed line bumps the
counter; once the counter exceeds the bound the reader is cancelled and
the session throws. Returns the final counter, the forwarded events and
whether the malformed bound aborted the session. -/
def processLines (mc : Nat) : List SSELine → Nat × List ChatEvent × Bool
  | [] => (mc, [], false)
  | .noData :: rest => processLines mc rest
  | .record d :: rest =>
    ((processLines mc rest).1,
     dispatchData d ++ (processLines mc rest).2.1,
     (processLines mc rest).2.2)
  | .malformed :: rest =>
    if mc + 1 > MALFORMED_BOUND then (mc + 1, [], true)
    else processLines (mc + 1) rest

/-- The number of malformed lines in a chunk. -/
def countMalformed : List SSELine → Nat
  | [] => 0
  | .malformed :: rest => countMalformed rest + 1
  | _ :: rest => countMalformed rest

/-- The events a chunk forwards when nothing aborts. -/
def eventsOf : List SSELine → List ChatEvent
  | [] => []
  | .record d :: rest => dispatchData d ++ eventsOf rest
  | _ :: rest => eventsOf rest

/-- One await of reader.read() raced against the idle timer (part_011
lines 262-277): the read either yields bytes whose complete lines are
given, or the idle timer fires first, or the read reports stream end. -/
inductive ReadStep
  | chunk (lines : List SSELine)
  | timeout
  | eof
deriving DecidableEq, Repr

/-- Observable outcome of the read loop of one streaming session. -/
structure SessionOutcome where
  events : List ChatEvent
  failure : Option String
  readerCancelled : Bool
  timersStarted : Nat
  timersCleared : Nat
  endOfInput : Bool
deriving DecidableEq, Repr

/-- The while-true read loop (part_011 lines 262-313). Every iteration
starts one idle timer and clears it in the finally block whichever branch
of the race wins; a timeout rejects the race and the session throws the
timeout error; a malformed-bound abort cancels the reader and throws; a
done read breaks the loop. endOfInput true marks the modelling artefact
of running out of scripted reads while the loop is still awaiting. -/
def runReads (mc : Nat) : List ReadStep → SessionOutcome
  | [] =>
    { events := [], failure := none, readerCancelled := false
      timersStarted := 0, timersCleared := 0, endOfInput := true }
  | .eof :: _ =>
    { events := [], failure := none, readerCancelled := false
      timersStarted := 1, timersCleared := 1, endOfInput := false }
  | .timeout :: _ =>
    { events := [], failure := some timeoutMsg, readerCancelled := false
      timersStarted := 1, timersCleared := 1, endOfInput := false }
  | .chunk lines :: rest =>
    if (processLines mc lines).2.2 then
      { events := (processLines mc lines).2.1, failure := some malformedMsg
        readerCancelled := true
        timersStarted := 1, timersCleared := 1, endOfInput := false }
    else
      { events := (processLines mc lines).2.1 ++ (runReads (processLines mc lines).1 rest).events
        failure := (runReads (processLines mc lines).1 rest).failure
        readerCancelled := (runReads (processLines mc lines).1 rest).readerCancelled
        timersStarted := (runReads (processLines mc lines).1 rest).timersStarted + 1
        timersCleared := (runReads (processLines mc lines).1 rest).timersCleared + 1
        endOfInput := (runReads (processLines mc lines).1 rest).endOfInput }

/-- A full streaming session starts with the malformed counter at zero
(`let malformedCount = 0`, part_011 line 259). -/
def runSession (reads : List ReadStep) : SessionOutcome :=
  runReads 0 reads

-- ════════════════════════════════════════════════════════════════════
-- Relay supersede state (activeAbortController, part_011 lines 214-336)
-- ════════════════════════════════════════════════════════════════════

/-- The module-level cancellation state of the relay. Sessions are
numbered in the order their AbortControllers are created; aborted holds
every controller whose abort() has been called, completed every session
whose finally block found itself still active. -/
structure RelayState where
  active : Option Nat
  aborted : List Nat
  completed : List Nat
  nextId : Nat
deriving DecidableEq, Repr

/-- The initial relay state: no active controller, no sessions yet. -/
def relayInit : RelayState :=
  { active := none, aborted := [], completed := [], nextId := 0 }

/-- Entry of the CHAT_SEND handler (part_011 lines 221-227): any previous
controller is aborted and nulled before the fresh controller is created
and installed; returns the fresh session id. -/
def sendStart (s : RelayState) : RelayState × Nat :=
  let ab := match s.active with
    | some i => i :: s.aborted
    | none => s.aborted
  ({ active := some s.nextId, aborted := ab, completed := s.completed
     nextId := s.nextId + 1 }, s.nextId)

/-- The finally block of the CHAT_SEND handler (part_011 lines 323-327):
the controller slot is cleared only when it still holds this session. -/
def sessionFinally (s : RelayState) (id : Nat) : RelayState :=
  if s.active = some id then
    { s with active := none, completed := id :: s.completed }
  else s

/-- The CHAT_ABORT handler (part_011 lines 330-336): aborts the active
controller when one exists and always returns true; it is a total
function, hence never throws. -/
def chatAbort (s : RelayState) : RelayState × Bool :=
  match s.active with
  | some i => ({ s with active := none, aborted := i :: s.aborted }, true)
  | none => (s, true)

/-- Interleaving commands against the relay: a new chat request, an
explicit abort, or the read loop of session id reaching its finally. -/
inductive RelayCmd
  | send
  | abortChat
  | finish (id : Nat)
deriving DecidableEq, Repr

/-- One event-loop step of the relay. -/
def relayStep (s : RelayState) : RelayCmd → RelayState
  | .send => (sendStart s).1
  | .abortChat => (chatAbort s).1
  | .finish id => sessionFinally s id

/-- The relay state after a sequence of interleaved commands. -/
def relayRun (cmds : List RelayCmd) : RelayState :=
  cmds.foldl relayStep relayInit

/-- A session is non-terminal when it has been created but neither its
controller was aborted nor its finally block has run. -/
def nonTerminal (s : RelayState) (i : Nat) : Prop :=
  i < s.nextId ∧ i ∉ s.aborted ∧ i ∉ s.completed

/-- An aborted controller makes fetch reads reject, so a session can
still deliver events only while its controller is not aborted and its
loop has not ended (AbortController semantics of the platform). -/
def canDeliver (s : RelayState) (i : Nat) : Prop :=
  i ∉ s.aborted ∧ i ∉ s.completed

/-- Responses of the CHAT_SEND invoke handler. -/
inductive ChatResponse
  | streamingOk
  | errorResp (msg : String)
  | pending
deriving DecidableEq, Repr

/-- One complete CHAT_SEND invocation run to rest against a scripted read
schedule: supersede and controller creation, the read loop, the catch
branch that forwards a thrown error on chat:error, and the finally block
(which the session only reaches once its loop has ended). -/
def chatSendRun (s : RelayState) (reads : List ReadStep) :
    RelayState × ChatResponse × List ChatEvent :=
  let s1 := (sendStart s).1
  let id := (sendStart s).2
  let o := runSession reads
  let resp := match o.failure with
    | some m => ChatResponse.errorResp m
    | none => if o.endOfInput then ChatResponse.pending else ChatResponse.streamingOk
  let evs := o.events ++ (match o.failure with
    | some m => [ChatEvent.errorEvent m]
    | none => [])
  let s2 := if o.endOfInput then s1 else sessionFinally s1 id
  (s2, resp, evs)

-- ════════════════════════════════════════════════════════════════════
-- License service (src/main/services/license-activation.ts)
-- JavaScript strings are modelled as List Char.
-- ════════════════════════════════════════════════════════════════════

/-- Uppercasing a string, modelling String.prototype.toUpperCase on the
ASCII keys the service handles. -/
def upperL (l : List Char) : List Char := l.map Char.toUpper

/-- Lowercasing a string, modelling String.prototype.toLowerCase. -/
def lowerL (l : List Char) : List Char := l.map Char.toLower

/-- String.prototype.trim: strip leading and trailing whitespace. -/
def trimL (l : List Char) : List Char :=
  ((l.dropWhile Char.isWhitespace).reverse.dropWhile Char.isWhitespace).reverse

/-- String.prototype.slice with a negative start: the last n characters
(the whole string when it is shorter than n). -/
def takeRightL (n : Nat) (l : List Char) : List Char := l.drop (l.length - n)

/-- String.prototype.split on a single dash: every occurrence separates,
empty segments included, and the empty string yields one empty segment. -/
def splitOnDash : List Char → List (List Char)
  | [] => [[]]
  | c :: rest =>
    if c = '-' then [] :: splitOnDash rest
    else
      match splitOnDash rest with
      | [] => [[c]]
      | h :: t => (c :: h) :: t

/-- Array.prototype.join on a dash. -/
def joinDash : List (List Char) → List Char
  | [] => []
  | [x] => x
  | x :: y :: t => x ++ '-' :: joinDash (y :: t)

/-- Whether the second list occurs at the start of the first. -/
def startsWithList : List Char → List Char → Bool
  | _, [] => true
  | [], _ :: _ => false
  | a :: ra, b :: rb => a = b && startsWithList ra rb

/-- Whether the second list occurs contiguously anywhere in the first. -/
def containsList : List Char → List Char → Bool
  | [], needle => needle.isEmpty
  | h :: t, needle => startsWithList (h :: t) needle || containsList t needle

/-- The sixteen characters of a lowercase hexadecimal digest. -/
def isHexLowerChar (c : Char) : Bool := decide (c ∈ "0123456789abcdef".data)

/-- The keyed-hash primitive crypto.createHmac(sha256, LICENSE_HMAC_SECRET)
followed by digest(hex) is external to the repository (Node crypto plus a
build-injected secret), so the service is parameterised over it; this
predicate records what Node guarantees of it: a 64-character lowercase
hexadecimal digest for every message. -/
def HexDigestFn (f : List Char → List Char) : Prop :=
  ∀ m, (∀ c ∈ f m, isHexLowerChar c = true) ∧ (f m).length = 64

/-- LicenseValidationResult (license-activation.ts lines 23-27). -/
structure LicenseValidationResult where
  valid : Bool
  tier : Option String
  error : Option String
deriving DecidableEq, Repr

/-- The persisted LicenseStore record (lines 29-33). -/
structure LicenseStore where
  key : List Char
  tier : String
  activatedAt : Nat
deriving DecidableEq, Repr

/-- Service state: the in-memory store field and the license.json file on
disk (absence of either is meaningful). -/
structure LicenseState where
  store : Option LicenseStore
  disk : Option LicenseStore
deriving DecidableEq, Repr

/-- LicenseStatus as returned by getStatus (src/shared/types.ts). The tier
is kept as the raw string the implementation produces. -/
structure LicenseStatusR where
  tier : String
  isActivated : Bool
  key : Option (List Char)
  activatedAt : Option Nat
deriving DecidableEq, Repr

/-- `validateFormat` (lines 147-159): at least four dash segments, fixed
DOCMIND marker, PRO tier segment, payload segment of length at least 6;
each failure carries its own message. -/
def validateFormat (key : List Char) : LicenseValidationResult :=
  let parts := splitOnDash key
  if parts.length < 4 ∨ parts.getD 0 [] ≠ "DOCMIND".data then
    { valid := false, tier := none, error := some "Format: DOCMIND-PRO-XXXXXX-XXXXXXXX" }
  else if parts.getD 1 [] ≠ "PRO".data then
    { valid := false, tier := none, error := some ("Unbekannter Tier: " ++ String.mk (parts.getD 1 [])) }
  else if (parts.getD 2 []).length < 6 then
    { valid := false, tier := none, error := some "Schluessel-Segment zu kurz" }
  else
    { valid := true, tier := none, error := none }

/-- `validateSignature` (lines 165-180): the last segment, lowercased, is
compared against the digest of everything before it, truncated to the
signature length; a mismatch is rejected with no detail. -/
def validateSignature (hmacHex : List Char → List Char) (key : List Char) :
    LicenseValidationResult :=
  let parts := splitOnDash key
  let signature := lowerL (parts.getLast?.getD [])
  let message := joinDash parts.dropLast
  let expected := (hmacHex message).take signature.length
  if signature ≠ expected then
    { valid := false, tier := none, error := none }
  else
    { valid := true, tier := some "pro", error := none }

/-- `activate` (lines 107-126): trim and uppercase the key, fail fast on
format, reject a bad signature uniformly, and on success overwrite the
in-memory store and persist it, returning the pro tier. -/
def activate (hmacHex : List Char → List Char) (st : LicenseState) (now : Nat)
    (key : List Char) : LicenseValidationResult × LicenseState :=
  let normalized := upperL (trimL key)
  let formatCheck := validateFormat normalized
  if formatCheck.valid = false then (formatCheck, st)
  else
    let signatureCheck := validateSignature hmacHex normalized
    if signatureCheck.valid = false then
      ({ valid := false, tier := none, error := some "Ungueltiger Lizenzschluessel" }, st)
    else
      let newStore : LicenseStore := { key := normalized, tier := "pro", activatedAt := now }
      ({ valid := true, tier := some "pro", error := none },
       { store := some newStore, disk := some newStore })

/-- `deactivate` (lines 131-140): null the store and delete the persisted
file when it exists; total, hence tolerant of an already absent record. -/
def deactivate (_st : LicenseState) : LicenseState :=
  { store := none, disk := none }

/-- `maskKey` (lines 185-191): first four and last two payload characters
around an ellipsis, signature replaced by four asterisks. -/
def maskKey (key : List Char) : List Char :=
  let parts := splitOnDash key
  if parts.length < 4 then "****".data
  else
    let payload := parts.getD 2 []
    let masked := payload.take 4 ++ "...".data ++ takeRightL 2 payload
    "DOCMIND-PRO-".data ++ masked ++ "-****".data

/-- `getStatus` (lines 84-94): without a store the service reports the
community tier and not activated; with one, its tier, the masked key and
the activation timestamp. -/
def getStatus (st : LicenseState) : LicenseStatusR :=
  match st.store with
  | none => { tier := "community", isActivated := false, key := none, activatedAt := none }
  | some s =>
    { tier := s.tier, isActivated := true, key := some (maskKey s.key)
      activatedAt := some s.activatedAt }

/-- `generateKey` with an explicit payload (lines 195-206): sign the
DOCMIND-PRO message with the same digest, truncate to 8 characters,
uppercase, and append. -/
def generateKey (hmacHex : List Char → List Char) (payload : List Char) : List Char :=
  let message := "DOCMIND-PRO-".data ++ payload
  let signature := upperL ((hmacHex message).take 8)
  message ++ '-' :: signature

/-- `generateKey` with no argument: the payload defaults to
crypto.randomBytes(6).toString(hex).toUpperCase(), modelled by passing the
12 lowercase hex characters the random bytes render to. -/
def generateKeyDefault (hmacHex : List Char → List Char) (randHex : List Char) : List Char :=
  generateKey hmacHex (upperL randHex)

-- ════════════════════════════════════════════════════════════════════
-- Helper lemmas: characters
-- ════════════════════════════════════════════════════════════════════

lemma char_toNat_ofNat (m : Nat) (h : m.isValidChar) : (Char.ofNat m).toNat = m := by
  unfold Char.ofNat
  rw [dif_pos h]
  unfold Char.ofNatAux
  simp [Char.toNat, UInt32.toNat]

lemma char_toUpper_eq_self (d : Char) (h : ¬(97 ≤ d.toNat ∧ d.toNat ≤ 122)) :
    Char.toUpper d = d := by
  unfold Char.toUpper
  rw [if_neg h]

lemma char_toUpper_toUpper (c : Char) : (Char.toUpper c).toUpper = Char.toUpper c := by
  by_cases h : 97 ≤ c.toNat ∧ c.toNat ≤ 122
  · have h1 : Char.toUpper c = Char.ofNat (c.toNat - 32) := by
      unfold Char.toUpper; rw [if_pos h]
    have hv : Nat.isValidChar (c.toNat - 32) := Or.inl (by omega)
    have ht : (Char.toUpper c).toNat = c.toNat - 32 := by
      rw [h1]; exact char_toNat_ofNat _ hv
    exact char_toUpper_eq_self _ (by omega)
  · rw [char_toUpper_eq_self _ h, char_toUpper_eq_self _ h]

lemma hex_mem (c : Char) (h : isHexLowerChar c = true) : c ∈ "0123456789abcdef".data :=
  of_decide_eq_true h

lemma hex_toLower_toUpper (c : Char) (h : isHexLowerChar c = true) :
    (Char.toUpper c).toLower = c := by
  have hm := hex_mem c h
  fin_cases hm <;> decide

lemma hex_toUpper_not_ws (c : Char) (h : isHexLowerChar c = true) :
    (Char.toUpper c).isWhitespace = false := by
  have hm := hex_mem c h
  fin_cases hm <;> decide

lemma hex_toUpper_ne_dash (c : Char) (h : isHexLowerChar c = true) :
    Char.toUpper c ≠ '-' := by
  have hm := hex_mem c h
  fin_cases hm <;> decide

lemma ws_toLower_not_hex (w : Char) (h : w.isWhitespace = true) :
    isHexLowerChar (Char.toLower w) = false := by
  unfold Char.isWhitespace at h
  simp only [Bool.or_eq_true, decide_eq_true_eq] at h
  rcases h with ((rfl | rfl) | rfl) | rfl <;> decide

lemma toLower_not_hex_imp_ne (w c : Char) (hc : isHexLowerChar (Char.toLower w) = true)
    (hne : isHexLowerChar (Char.toLower c) = false) : w ≠ c := by
  intro h
  rw [h] at hc
  rw [hc] at hne
  exact Bool.noConfusion hne

-- ════════════════════════════════════════════════════════════════════
-- Helper lemmas: uppercasing and trimming
-- ════════════════════════════════════════════════════════════════════

lemma upperL_append (a b : List Char) : upperL (a ++ b) = upperL a ++ upperL b := by
  simp [upperL]

lemma upperL_idem (l : List Char) : upperL (upperL l) = upperL l := by
  simp only [upperL, List.map_map]
  exact List.map_congr_left (fun c _ => char_toUpper_toUpper c)

lemma mem_upperL_toUpper_fixed (l : List Char) (c : Char) (h : c ∈ upperL l) :
    Char.toUpper c = c := by
  simp only [upperL, List.mem_map] at h
  obtain ⟨d, _, rfl⟩ := h
  exact char_toUpper_toUpper d

lemma upperL_eq_self_of_fixed (l : List Char) (h : ∀ c ∈ l, Char.toUpper c = c) :
    upperL l = l := by
  simp only [upperL]
  exact List.map_congr_left (fun c hc => h c hc) |>.trans (List.map_id l) |>.symm ▸ rfl

lemma dropWhile_eq_self_of_head (p : Char → Bool) (l : List Char)
    (h : ∀ c, l.head? = some c → p c = false) : l.dropWhile p = l := by
  cases l with
  | nil => rfl
  | cons a t =>
    rw [List.dropWhile_cons, if_neg]
    rw [h a rfl]
    exact Bool.false_ne_true

lemma trimL_eq_self (l : List Char)
    (h1 : ∀ c, l.head? = some c → c.isWhitespace = false)
    (h2 : ∀ c, l.getLast? = some c → c.isWhitespace = false) : trimL l = l := by
  unfold trimL
  rw [dropWhile_eq_self_of_head _ _ h1]
  rw [dropWhile_eq_self_of_head _ _ (fun c hc => h2 c (by rwa [List.head?_reverse] at hc))]
  exact List.reverse_reverse l

-- ════════════════════════════════════════════════════════════════════
-- Helper lemmas: dash splitting and joining
-- ════════════════════════════════════════════════════════════════════

lemma splitOnDash_dash_cons (l : List Char) : splitOnDash ('-' :: l) = [] :: splitOnDash l :=
  rfl

lemma splitOnDash_cons_of_ne (c : Char) (l : List Char) (a : List Char) (t : List (List Char))
    (hc : c ≠ '-') (h : splitOnDash l = a :: t) : splitOnDash (c :: l) = (c :: a) :: t := by
  conv_lhs => unfold splitOnDash
  rw [if_neg hc, h]

lemma splitOnDash_ne_nil (l : List Char) : splitOnDash l ≠ [] := by
  induction l with
  | nil => simp [splitOnDash]
  | cons c rest ih =>
    by_cases hc : c = '-'
    · subst hc
      rw [splitOnDash_dash_cons]
      simp
    · cases h : splitOnDash rest with
      | nil => exact absurd h ih
      | cons a t =>
        rw [splitOnDash_cons_of_ne c rest a t hc h]
        simp

lemma splitOnDash_no_dash (l : List Char) (h : '-' ∉ l) : splitOnDash l = [l] := by
  induction l with
  | nil => rfl
  | cons c rest ih =>
    have hc : c ≠ '-' := fun hx => h (hx ▸ List.mem_cons_self c rest)
    have hr : '-' ∉ rest := fun hx => h (List.mem_cons_of_mem c hx)
    rw [splitOnDash_cons_of_ne c rest rest [] hc (ih hr)]

lemma splitOnDash_append_cons (a b : List Char) (h : '-' ∉ a) :
    splitOnDash (a ++ '-' :: b) = a :: splitOnDash b := by
  induction a with
  | nil =>
    simp only [List.nil_append]
    exact splitOnDash_dash_cons b
  | cons c rest ih =>
    have hc : c ≠ '-' := fun hx => h (hx ▸ List.mem_cons_self c rest)
    have hr : '-' ∉ rest := fun hx => h (List.mem_cons_of_mem c hx)
    simp only [List.cons_append]
    rw [splitOnDash_cons_of_ne c (rest ++ '-' :: b) rest (splitOnDash b) hc (ih hr)]

lemma joinDash_splitOnDash (l : List Char) : joinDash (splitOnDash l) = l := by
  induction l with
  | nil => rfl
  | cons c rest ih =>
    by_cases hc : c = '-'
    · subst hc
      rw [splitOnDash_dash_cons]
      cases h : splitOnDash rest with
      | nil => exact absurd h (splitOnDash_ne_nil rest)
      | cons a t =>
        have hj : joinDash ([] :: a :: t) = '-' :: joinDash (a :: t) := rfl
        rw [hj, ← h, ih]
    · cases h : splitOnDash rest with
      | nil => exact absurd h (splitOnDash_ne_nil rest)
      | cons a t =>
        rw [splitOnDash_cons_of_ne c rest a t hc h]
        cases t with
        | nil =>
          have hj : joinDash [c :: a] = c :: a := rfl
          rw [hj]
          have hj2 : joinDash [a] = a := rfl
          have h3 := ih
          rw [h, hj2] at h3
          rw [h3]
        | cons y ys =>
          have hj : joinDash ((c :: a) :: y :: ys) = (c :: a) ++ '-' :: joinDash (y :: ys) := rfl
          rw [hj]
          have h2 : joinDash (a :: y :: ys) = a ++ '-' :: joinDash (y :: ys) := rfl
          have h3 := ih
          rw [h, h2] at h3
          simp only [List.cons_append]
          rw [h3]

lemma mem_splitOnDash_no_dash (l p : List Char) (hp : p ∈ splitOnDash l) : '-' ∉ p := by
  induction l generalizing p with
  | nil =>
    simp [splitOnDash] at hp
    subst hp
    exact List.not_mem_nil '-'
  | cons c rest ih =>
    unfold splitOnDash at hp
    by_cases hc : c = '-'
    · rw [if_pos hc] at hp
      rcases List.mem_cons.mp hp with rfl | hmem
      · exact List.not_mem_nil '-'
      · exact ih p hmem
    · rw [if_neg hc] at hp
      cases h : splitOnDash rest with
      | nil => exact absurd h (splitOnDash_ne_nil rest)
      | cons a t =>
        rw [h] at hp
        rcases List.mem_cons.mp hp with rfl | hmem
        · intro hx
          rcases List.mem_cons.mp hx with hx1 | hx2
          · exact hc hx1.symm
          · exact ih a (h ▸ List.mem_cons_self a t) hx2
        · exact ih p (h ▸ List.mem_cons_of_mem a hmem)

lemma mem_of_mem_splitOnDash (l p : List Char) (c : Char) (hp : p ∈ splitOnDash l)
    (hc : c ∈ p) : c ∈ l := by
  induction l generalizing p with
  | nil =>
    simp [splitOnDash] at hp
    subst hp
    exact absurd hc (List.not_mem_nil c)
  | cons x rest ih =>
    unfold splitOnDash at hp
    by_cases hx : x = '-'
    · rw [if_pos hx] at hp
      rcases List.mem_cons.mp hp with rfl | hmem
      · exact absurd hc (List.not_mem_nil c)
      · exact List.mem_cons_of_mem x (ih p hmem hc)
    · rw [if_neg hx] at hp
      cases h : splitOnDash rest with
      | nil => exact absurd h (splitOnDash_ne_nil rest)
      | cons a t =>
        rw [h] at hp
        rcases List.mem_cons.mp hp with rfl | hmem
        · rcases List.mem_cons.mp hc with rfl | hc2
          · exact List.mem_cons_self c rest
          · exact List.mem_cons_of_mem x (ih a (h ▸ List.mem_cons_self a t) hc2)
        · exact List.mem_cons_of_mem x (ih p (h ▸ List.mem_cons_of_mem a hmem) hc)

lemma joinDash_cons_cons (a b : List Char) (t : List (List Char)) :
    joinDash (a :: b :: t) = a ++ '-' :: joinDash (b :: t) := rfl

lemma splitOnDash_join_concat (ps : List (List Char)) (x : List Char) (hps : ps ≠ [])
    (h1 : ∀ p ∈ ps, '-' ∉ p) (h2 : '-' ∉ x) :
    splitOnDash (joinDash ps ++ '-' :: x) = ps ++ [x] := by
  induction ps with
  | nil => exact absurd rfl hps
  | cons a t ih =>
    cases t with
    | nil =>
      have : joinDash [a] = a := rfl
      rw [this, splitOnDash_append_cons a x (h1 a (List.mem_cons_self a [])),
          splitOnDash_no_dash x h2]
      rfl
    | cons b t2 =>
      rw [joinDash_cons_cons, List.append_assoc]
      simp only [List.cons_append]
      rw [splitOnDash_append_cons a _ (h1 a (List.mem_cons_self a _))]
      have := ih (by simp) (fun p hp => h1 p (List.mem_cons_of_mem a hp))
      simp only [List.cons_append] at this ⊢
      rw [this]

lemma mem_joinDash (c : Char) (ps : List (List Char)) (h : c ∈ joinDash ps) :
    c = '-' ∨ ∃ p ∈ ps, c ∈ p := by
  induction ps with
  | nil => exact absurd h (List.not_mem_nil c)
  | cons a t ih =>
    cases t with
    | nil =>
      right
      exact ⟨a, List.mem_cons_self a [], h⟩
    | cons b t2 =>
      rw [joinDash_cons_cons] at h
      rcases List.mem_append.mp h with ha | hrest
      · right; exact ⟨a, List.mem_cons_self a _, ha⟩
      · rcases List.mem_cons.mp hrest with rfl | hj
        · left; rfl
        · rcases ih hj with hd | ⟨p, hp, hcp⟩
          · left; exact hd
          · right; exact ⟨p, List.mem_cons_of_mem a hp, hcp⟩

-- ════════════════════════════════════════════════════════════════════
-- Helper lemmas: substring occurrence
-- ════════════════════════════════════════════════════════════════════

lemma startsWith_split (u v s : List Char) (h : startsWithList (u ++ '-' :: v) s = true)
    (hs : '-' ∉ s) : startsWithList u s = true := by
  induction u generalizing s with
  | nil =>
    cases s with
    | nil => rfl
    | cons y ys =>
      simp only [List.nil_append, startsWithList, Bool.and_eq_true, decide_eq_true_eq] at h
      exact absurd (h.1 ▸ List.mem_cons_self y ys) hs
  | cons z zs ih =>
    cases s with
    | nil => rfl
    | cons y ys =>
      simp only [List.cons_append, startsWithList, Bool.and_eq_true, decide_eq_true_eq] at h ⊢
      exact ⟨h.1, ih ys (h.2) (fun hx => hs (List.mem_cons_of_mem y hx))⟩

lemma containsList_append_cons (a b s : List Char)
    (h : containsList (a ++ '-' :: b) s = true) (hs : '-' ∉ s) :
    containsList a s = true ∨ containsList b s = true := by
  induction a with
  | nil =>
    simp only [List.nil_append] at h
    unfold containsList at h
    rcases Bool.or_eq_true_iff.mp h with h1 | h2
    · cases s with
      | nil => left; rfl
      | cons y ys =>
        simp only [startsWithList, Bool.and_eq_true, decide_eq_true_eq] at h1
        exact absurd (h1.1 ▸ List.mem_cons_self y ys) hs
    · right; exact h2
  | cons x xs ih =>
    simp only [List.cons_append] at h
    unfold containsList at h
    rcases Bool.or_eq_true_iff.mp h with h1 | h2
    · left
      have h3 : startsWithList ((x :: xs) ++ '-' :: b) s = true := by
        simpa using h1
      have h4 := startsWith_split (x :: xs) b s h3 hs
      unfold containsList
      rw [h4]
      rfl
    · rcases ih h2 with hL | hR
      · left
        unfold containsList
        rw [hL]
        simp
      · right; exact hR

lemma startsWith_pointwise (hay s : List Char) (d : Char)
    (h : startsWithList hay s = true) :
    s.length ≤ hay.length ∧ ∀ j, j < s.length → s.getD j d = hay.getD j d := by
  induction s generalizing hay with
  | nil => simp
  | cons y ys ih =>
    cases hay with
    | nil => simp [startsWithList] at h
    | cons x xs =>
      simp only [startsWithList, Bool.and_eq_true, decide_eq_true_eq] at h
      obtain ⟨rfl, h2⟩ := h
      obtain ⟨hlen, hpt⟩ := ih xs h2
      constructor
      · simpa using Nat.succ_le_succ hlen
      · intro j hj
        cases j with
        | zero => rfl
        | succ k =>
          simp only [List.getD_cons_succ]
          exact hpt k (by simpa using Nat.lt_of_succ_lt_succ hj)

lemma containsList_occurrence (hay s : List Char) (d : Char)
    (h : containsList hay s = true) :
    ∃ i, i + s.length ≤ hay.length ∧ ∀ j, j < s.length → s.getD j d = hay.getD (i + j) d := by
  induction hay with
  | nil =>
    unfold containsList at h
    refine ⟨0, ?_, ?_⟩
    · simp [List.isEmpty_iff.mp h]
    · intro j hj
      rw [List.isEmpty_iff.mp h] at hj
      exact absurd hj (by simp)
  | cons x xs ih =>
    unfold containsList at h
    rcases Bool.or_eq_true_iff.mp h with h1 | h2
    · obtain ⟨hlen, hpt⟩ := startsWith_pointwise (x :: xs) s d h1
      exact ⟨0, by simpa using hlen, fun j hj => by simpa using hpt j hj⟩
    · obtain ⟨i, hlen, hpt⟩ := ih h2
      refine ⟨i + 1, by simp only [List.length_cons]; omega, ?_⟩
      intro j hj
      have := hpt j hj
      rw [this]
      have harith : i + 1 + j = (i + j) + 1 := by omega
      rw [harith, List.getD_cons_succ]

lemma getD_mem_of_lt (l : List Char) (j : Nat) (d : Char) (h : j < l.length) :
    l.getD j d ∈ l := by
  rw [List.getD_eq_getElem l d h]
  exact l.getElem_mem h

-- ════════════════════════════════════════════════════════════════════
-- Helper lemmas: session loop
-- ════════════════════════════════════════════════════════════════════

lemma processLines_no_abort (ls : List SSELine) : ∀ mc, mc + countMalformed ls ≤ MALFORMED_BOUND →
    processLines mc ls = (mc + countMalformed ls, eventsOf ls, false) := by
  induction ls with
  | nil => intro mc h; simp [processLines, countMalformed, eventsOf]
  | cons l rest ih =>
    intro mc h
    cases l with
    | noData =>
      simp only [processLines, countMalformed, eventsOf]
      exact ih mc (by simpa [countMalformed] using h)
    | record d =>
      simp only [processLines, countMalformed, eventsOf]
      rw [ih mc (by simpa [countMalformed] using h)]
    | malformed =>
      simp only [processLines, countMalformed, eventsOf] at h ⊢
      rw [if_neg (by simp [MALFORMED_BOUND] at h ⊢; omega)]
      rw [ih (mc + 1) (by omega)]
      refine Prod.ext ?_ rfl
      simp
      omega

lemma processLines_abort (ls : List SSELine) : ∀ mc, mc ≤ MALFORMED_BOUND →
    MALFORMED_BOUND < mc + countMalformed ls → (processLines mc ls).2.2 = true := by
  induction ls with
  | nil =>
    intro mc h1 h2
    simp [countMalformed] at h2
    omega
  | cons l rest ih =>
    intro mc h1 h2
    cases l with
    | noData =>
      simp only [processLines]
      exact ih mc h1 (by simpa [countMalformed] using h2)
    | record d =>
      simp only [processLines]
      exact ih mc h1 (by simpa [countMalformed] using h2)
    | malformed =>
      simp only [countMalformed] at h2
      by_cases hb : mc + 1 > MALFORMED_BOUND
      · simp only [processLines, if_pos hb]
      · simp only [processLines, if_neg hb]
        exact ih (mc + 1) (by omega) (by omega)

lemma runReads_timers (reads : List ReadStep) : ∀ mc,
    (runReads mc reads).timersCleared = (runReads mc reads).timersStarted := by
  induction reads with
  | nil => intro mc; rfl
  | cons r rest ih =>
    intro mc
    cases r with
    | eof => rfl
    | timeout => rfl
    | chunk lines =>
      by_cases hb : (processLines mc lines).2.2
      · simp [runReads, hb]
      · simp [runReads, hb, ih]

-- ════════════════════════════════════════════════════════════════════
-- Claims C8, C10, C1, C3
-- ════════════════════════════════════════════════════════════════════

/-- C8: checkFeature allows every capability absent from the
feature-to-minimum-tier map; for mapped capabilities it allows exactly
when the numeric rank of the current tier reaches the rank of the
required tier, and a denial carries the human-readable reason and the
required tier; in particular, under free < pro < team, a pro-gated
capability is denied under free and allowed under pro and team, and a
team-gated capability is denied under free and pro and allowed under
team. -/
theorem claim_C8_checkFeature_tier_order (f : String) (t : SubscriptionTier) :
    (FEATURE_MIN_TIER f = none →
      checkFeature t f = { allowed := true, reason := none, requiredTier := none }) ∧
    (∀ req, FEATURE_MIN_TIER f = some req →
      ((checkFeature t f).allowed = true ↔ TIER_LEVEL req ≤ TIER_LEVEL t) ∧
      ((checkFeature t f).allowed = false →
        (checkFeature t f).reason =
          some (FEATURE_LABELS f ++ " erfordert Docmind " ++ TIER_LABELS req) ∧
        (checkFeature t f).requiredTier = some req)) ∧
    (FEATURE_MIN_TIER f = some SubscriptionTier.pro →
      (checkFeature SubscriptionTier.free f).allowed = false ∧
      (checkFeature SubscriptionTier.pro f).allowed = true ∧
      (checkFeature SubscriptionTier.team f).allowed = true) ∧
    (FEATURE_MIN_TIER f = some SubscriptionTier.team →
      (checkFeature SubscriptionTier.free f).allowed = false ∧
      (checkFeature SubscriptionTier.pro f).allowed = false ∧
      (checkFeature SubscriptionTier.team f).allowed = true) := by
  refine ⟨fun h => by simp [checkFeature, h], fun req h => ?_, fun h => ?_, fun h => ?_⟩
  · constructor
    · cases t <;> cases req <;> simp [checkFeature, h, TIER_LEVEL]
    · intro hd
      cases t <;> cases req <;> simp_all [checkFeature, TIER_LEVEL]
  · exact ⟨by simp [checkFeature, h, TIER_LEVEL], by simp [checkFeature, h, TIER_LEVEL],
      by simp [checkFeature, h, TIER_LEVEL]⟩
  · exact ⟨by simp [checkFeature, h, TIER_LEVEL], by simp [checkFeature, h, TIER_LEVEL],
      by simp [checkFeature, h, TIER_LEVEL]⟩

/-- Witness for C8 at the concrete capabilities folder-import (pro-gated),
rbac (team-gated) and an unmapped capability name. -/
theorem claim_C8_witness :
    (checkFeature SubscriptionTier.free "folder-import").allowed = false ∧
    (checkFeature SubscriptionTier.pro "folder-import").allowed = true ∧
    (checkFeature SubscriptionTier.team "folder-import").allowed = true ∧
    (checkFeature SubscriptionTier.free "rbac").allowed = false ∧
    (checkFeature SubscriptionTier.pro "rbac").allowed = false ∧
    (checkFeature SubscriptionTier.team "rbac").allowed = true ∧
    checkFeature SubscriptionTier.free "basic-search" =
      { allowed := true, reason := none, requiredTier := none } :=
  ⟨((claim_C8_checkFeature_tier_order "folder-import" SubscriptionTier.free).2.2.1 rfl).1,
   ((claim_C8_checkFeature_tier_order "folder-import" SubscriptionTier.free).2.2.1 rfl).2.1,
   ((claim_C8_checkFeature_tier_order "folder-import" SubscriptionTier.free).2.2.1 rfl).2.2,
   ((claim_C8_checkFeature_tier_order "rbac" SubscriptionTier.free).2.2.2 rfl).1,
   ((claim_C8_checkFeature_tier_order "rbac" SubscriptionTier.free).2.2.2 rfl).2.1,
   ((claim_C8_checkFeature_tier_order "rbac" SubscriptionTier.free).2.2.2 rfl).2.2,
   (claim_C8_checkFeature_tier_order "basic-search" SubscriptionTier.free).1 rfl⟩

/-- C10: the sidecar status is derived solely from the healthy flag and
the process handle as healthy, then starting, then stopped; the unhealthy
member of the status enum is never produced for any state, and both exit
handlers clear the flag and the handle, so a crashed service is
subsequently reported as stopped. -/
theorem claim_C10_status_never_unhealthy (s : SidecarState) (wins : List Nat)
    (code : Option Int) :
    sidecarStatus s ≠ ServiceStatus.unhealthy ∧
    (pythonGetStatus s).status ≠ ServiceStatus.unhealthy ∧
    (qdrantGetStatus s).status ≠ ServiceStatus.unhealthy ∧
    (s.healthy = true → sidecarStatus s = ServiceStatus.healthy) ∧
    (s.healthy = false → s.hasProcess = true → sidecarStatus s = ServiceStatus.starting) ∧
    (s.healthy = false → s.hasProcess = false → sidecarStatus s = ServiceStatus.stopped) ∧
    sidecarStatus (pythonOnExit wins s code).1 = ServiceStatus.stopped ∧
    sidecarStatus (qdrantOnExit wins s code).1 = ServiceStatus.stopped := by
  obtain ⟨h, p⟩ := s
  cases h <;> cases p <;>
    simp [sidecarStatus, pythonGetStatus, qdrantGetStatus, pythonOnExit, qdrantOnExit]

/-- Witness for C10 at the three reachable flag combinations. -/
theorem claim_C10_witness :
    sidecarStatus ⟨false, false⟩ = ServiceStatus.stopped ∧
    sidecarStatus ⟨false, true⟩ = ServiceStatus.starting ∧
    sidecarStatus ⟨true, false⟩ = ServiceStatus.healthy :=
  ⟨(claim_C10_status_never_unhealthy ⟨false, false⟩ [] none).2.2.2.2.2.1 rfl rfl,
   (claim_C10_status_never_unhealthy ⟨false, true⟩ [] none).2.2.2.2.1 rfl rfl,
   (claim_C10_status_never_unhealthy ⟨true, false⟩ [] none).2.2.2.1 rfl⟩

/-- C1 counterexample: the Qdrant exit handler, on an unexpected exit
with the non-zero, non-null code 1, emits no crash notification at all,
and the resulting reported status is stopped, not unhealthy — refuting
the claim for the Qdrant supervisor. -/
theorem claim_C1_counterexample :
    (qdrantOnExit [0] ⟨true, true⟩ (some 1)).2 = [] ∧
    sidecarStatus (qdrantOnExit [0] ⟨true, true⟩ (some 1)).1 = ServiceStatus.stopped ∧
    sidecarStatus (qdrantOnExit [0] ⟨true, true⟩ (some 1)).1 ≠ ServiceStatus.unhealthy ∧
    wasCrash (some 1) = true :=
  ⟨rfl, rfl, by decide, by decide⟩

/-- C1 amended: on an unexpected non-zero, non-null exit, the Python
sidecar exit handler emits a crash notification to every open window in
the same step; the Qdrant exit handler emits none; both clear the healthy
flag and the process handle, so the status reads stopped afterwards (not
unhealthy). -/
theorem claim_C1_crash_push (wins : List Nat) (s : SidecarState) (code : Option Int)
    (h : wasCrash code = true) :
    (pythonOnExit wins s code).2 = wins.map (fun w => (w, CrashEvent.mk "python" code)) ∧
    (∀ w ∈ wins, (w, CrashEvent.mk "python" code) ∈ (pythonOnExit wins s code).2) ∧
    (qdrantOnExit wins s code).2 = [] ∧
    sidecarStatus (pythonOnExit wins s code).1 = ServiceStatus.stopped ∧
    sidecarStatus (qdrantOnExit wins s code).1 = ServiceStatus.stopped := by
  refine ⟨by simp [pythonOnExit, h], ?_, rfl, rfl, rfl⟩
  intro w hw
  simp only [pythonOnExit, h, if_pos]
  exact List.mem_map.mpr ⟨w, hw, rfl⟩

/-- Witness for C1 amended at a concrete window list and exit code. -/
theorem claim_C1_witness :
    (pythonOnExit [7] ⟨true, true⟩ (some 1)).2 = [(7, CrashEvent.mk "python" (some 1))] ∧
    sidecarStatus (pythonOnExit [7] ⟨true, true⟩ (some 1)).1 = ServiceStatus.stopped :=
  ⟨(claim_C1_crash_push [7] ⟨true, true⟩ (some 1) (by decide)).1,
   (claim_C1_crash_push [7] ⟨true, true⟩ (some 1) (by decide)).2.2.2.1⟩

/-- C3 as the code behaves: after deactivate (and equally when no record
was ever persisted) the store and the persisted record are gone,
deactivate tolerates the record already being absent, and getStatus
reports isActivated false — but the reported tier is the string
community, which is not free and is not a member of the declared
SubscriptionTier union free, pro, team at all. -/
theorem claim_C3_deactivate_reports_community (st : LicenseState) :
    deactivate st = { store := none, disk := none } ∧
    (deactivate st).disk = none ∧
    getStatus (deactivate st) =
      { tier := "community", isActivated := false, key := none, activatedAt := none } ∧
    getStatus { store := none, disk := none } =
      { tier := "community", isActivated := false, key := none, activatedAt := none } ∧
    deactivate { store := none, disk := none } = { store := none, disk := none } ∧
    (getStatus (deactivate st)).tier ≠ "free" ∧
    "community" ∉ subscriptionTierNames :=
  ⟨rfl, rfl, rfl, rfl, rfl, by show ("community" : String) ≠ "free"; decide, by decide⟩

-- ════════════════════════════════════════════════════════════════════
-- Claims C2 and C7
-- ════════════════════════════════════════════════════════════════════

/-- C2: records that fail to parse are counted and silently skipped while
the running count stays within the bound of 20 (the well-formed records
around them are still forwarded), and the session aborts with the
stream-aborted error and a cancelled reader as soon as the count exceeds
20; a session given exactly 20 malformed records continues and a
subsequent well-formed done record completes it, one given 21 aborts; the
counter starts at zero for each new session. -/
theorem claim_C2_malformed_bound :
    (∀ mc ls, mc + countMalformed ls ≤ MALFORMED_BOUND →
      processLines mc ls = (mc + countMalformed ls, eventsOf ls, false)) ∧
    (∀ mc ls, mc ≤ MALFORMED_BOUND → MALFORMED_BOUND < mc + countMalformed ls →
      (processLines mc ls).2.2 = true) ∧
    (∀ sid, runSession
        [ReadStep.chunk (List.replicate 20 SSELine.malformed),
         ReadStep.chunk [SSELine.record (SSEData.done sid)], ReadStep.eof] =
      { events := [ChatEvent.complete sid], failure := none, readerCancelled := false,
        timersStarted := 3, timersCleared := 3, endOfInput := false }) ∧
    (runSession [ReadStep.chunk (List.replicate 21 SSELine.malformed)] =
      { events := [], failure := some malformedMsg, readerCancelled := true,
        timersStarted := 1, timersCleared := 1, endOfInput := false }) ∧
    (∀ reads, runSession reads = runReads 0 reads) := by
  refine ⟨fun mc ls h => processLines_no_abort ls mc h,
          fun mc ls h1 h2 => processLines_abort ls mc h1 h2, ?_, by decide, fun _ => rfl⟩
  intro sid
  generalize hL : List.replicate 20 SSELine.malformed = L
  have h20 : processLines 0 L = (20, [], false) := by rw [← hL]; decide
  have hdone : processLines 20 [SSELine.record (SSEData.done sid)] =
      (20, [ChatEvent.complete sid], false) := by
    simp [processLines, dispatchData]
  simp [runSession, runReads, h20, hdone]

/-- Witness for C2 at concrete sessions. -/
theorem claim_C2_witness :
    processLines 0 [SSELine.malformed] = (1, [], false) ∧
    (processLines 0 (List.replicate 21 SSELine.malformed)).2.2 = true ∧
    runSession [ReadStep.chunk (List.replicate 20 SSELine.malformed),
        ReadStep.chunk [SSELine.record (SSEData.done (some "s1"))], ReadStep.eof] =
      { events := [ChatEvent.complete (some "s1")], failure := none, readerCancelled := false,
        timersStarted := 3, timersCleared := 3, endOfInput := false } :=
  ⟨claim_C2_malformed_bound.1 0 [SSELine.malformed] (by decide),
   claim_C2_malformed_bound.2.1 0 (List.replicate 21 SSELine.malformed) (by decide) (by decide),
   claim_C2_malformed_bound.2.2.1 (some "s1")⟩

/-- C7: every read is raced against the idle timer and the timer is
cleared on every iteration whichever branch wins, so cleared always
equals started (no timer accumulation); a read that times out fails the
session with the timeout-specific error, which differs from every
connectivity error and from the malformed-abort error; and a CHAT_SEND
run whose read times out surfaces the error on the chat error channel,
returns an error response and releases its cancellation token. -/
theorem claim_C7_idle_timeout :
    (∀ mc reads, (runReads mc reads).timersCleared = (runReads mc reads).timersStarted) ∧
    (∀ mc rest, runReads mc (ReadStep.timeout :: rest) =
      { events := [], failure := some timeoutMsg, readerCancelled := false,
        timersStarted := 1, timersCleared := 1, endOfInput := false }) ∧
    (∀ status text, timeoutMsg ≠ httpErrorMsg status text) ∧
    timeoutMsg ≠ malformedMsg ∧
    (∀ s rest, (chatSendRun s (ReadStep.timeout :: rest)).1.active = none ∧
      (chatSendRun s (ReadStep.timeout :: rest)).2.1 = ChatResponse.errorResp timeoutMsg ∧
      (chatSendRun s (ReadStep.timeout :: rest)).2.2 = [ChatEvent.errorEvent timeoutMsg]) := by
  refine ⟨fun mc reads => runReads_timers reads mc, fun mc rest => rfl, ?_, by decide, ?_⟩
  · intro status text h
    have hd := congrArg (fun s : String => s.data.head?) h
    simp only [timeoutMsg, httpErrorMsg, String.data_append] at hd
    rw [show ("SSE stream timeout: no data for 30s").data.head? = some 'S' from rfl] at hd
    simp only [List.cons_append, List.head?_cons, Option.some.injEq] at hd
    exact absurd hd (by decide)
  · intro s rest
    refine ⟨?_, rfl, rfl⟩
    simp [chatSendRun, runSession, runReads, sessionFinally, sendStart]

/-- Witness for C7 at a concrete timing-out session. -/
theorem claim_C7_witness :
    (runReads 0 [ReadStep.timeout]).timersCleared = (runReads 0 [ReadStep.timeout]).timersStarted ∧
    runReads 0 [ReadStep.timeout] =
      { events := [], failure := some timeoutMsg, readerCancelled := false,
        timersStarted := 1, timersCleared := 1, endOfInput := false } ∧
    timeoutMsg ≠ httpErrorMsg 500 "upstream down" ∧
    (chatSendRun relayInit [ReadStep.timeout]).1.active = none :=
  ⟨claim_C7_idle_timeout.1 0 [ReadStep.timeout],
   claim_C7_idle_timeout.2.1 0 [],
   claim_C7_idle_timeout.2.2.1 500 "upstream down",
   (claim_C7_idle_timeout.2.2.2.2 relayInit []).1⟩

/-- Witness for C3 at a concrete activated state. -/
theorem claim_C3_witness :
    getStatus (deactivate
      { store := some { key := "K".data, tier := "pro", activatedAt := 3 }
        disk := some { key := "K".data, tier := "pro", activatedAt := 3 } }) =
      { tier := "community", isActivated := false, key := none, activatedAt := none } ∧
    "community" ∉ subscriptionTierNames :=
  ⟨(claim_C3_deactivate_reports_community
      { store := some { key := "K".data, tier := "pro", activatedAt := 3 }
        disk := some { key := "K".data, tier := "pro", activatedAt := 3 } }).2.2.1,
   (claim_C3_deactivate_reports_community { store := none, disk := none }).2.2.2.2.2.2⟩

-- ════════════════════════════════════════════════════════════════════
-- Claim C6: supersede semantics
-- ════════════════════════════════════════════════════════════════════

/-- The relay invariant: the active slot is fresh-bounded, every recorded
session id is bounded, and every non-terminal session is the active one. -/
def RelayInv (s : RelayState) : Prop :=
  (∀ i, s.active = some i → i < s.nextId) ∧
  (∀ i ∈ s.aborted, i < s.nextId) ∧
  (∀ i ∈ s.completed, i < s.nextId) ∧
  (∀ i, nonTerminal s i → s.active = some i)

lemma relayInv_init : RelayInv relayInit := by
  refine ⟨?_, ?_, ?_, ?_⟩ <;> intro i h <;> simp_all [relayInit, nonTerminal]

lemma relayInv_step (s : RelayState) (c : RelayCmd) (h : RelayInv s) :
    RelayInv (relayStep s c) := by
  obtain ⟨h1, h2, h3, h4⟩ := h
  cases c with
  | send =>
    refine ⟨?_, ?_, ?_, ?_⟩
    · intro i hi
      simp only [relayStep, sendStart, Option.some.injEq] at hi
      simp only [relayStep, sendStart]
      omega
    · intro i hi
      simp only [relayStep, sendStart] at hi ⊢
      cases ha : s.active with
      | none =>
        rw [ha] at hi
        exact Nat.lt_succ_of_lt (h2 i hi)
      | some a =>
        rw [ha] at hi
        rcases List.mem_cons.mp hi with rfl | hmem
        · exact Nat.lt_succ_of_lt (h1 i ha)
        · exact Nat.lt_succ_of_lt (h2 i hmem)
    · intro i hi
      simp only [relayStep, sendStart] at hi ⊢
      exact Nat.lt_succ_of_lt (h3 i hi)
    · intro i hi
      obtain ⟨hb, hab, hcomp⟩ := hi
      simp only [relayStep, sendStart] at hb hab hcomp ⊢
      by_cases hieq : i = s.nextId
      · rw [hieq]
      · exfalso
        have hilt : i < s.nextId := by omega
        cases ha : s.active with
        | none =>
          have := h4 i ⟨hilt, by rw [ha] at hab; exact hab, hcomp⟩
          rw [ha] at this
          exact Option.noConfusion this
        | some a =>
          rw [ha] at hab
          have hne : i ≠ a := fun hx => hab (hx ▸ List.mem_cons_self a s.aborted)
          have hnm : i ∉ s.aborted := fun hx => hab (List.mem_cons_of_mem a hx)
          have := h4 i ⟨hilt, hnm, hcomp⟩
          rw [ha] at this
          exact hne (Option.some.injEq _ _ ▸ this.symm)
  | abortChat =>
    cases ha : s.active with
    | none =>
      have hstep : relayStep s RelayCmd.abortChat = s := by
        simp [relayStep, chatAbort, ha]
      rw [hstep]
      exact ⟨h1, h2, h3, h4⟩
    | some a =>
      have hstep : relayStep s RelayCmd.abortChat =
          { s with active := none, aborted := a :: s.aborted } := by
        simp [relayStep, chatAbort, ha]
      rw [hstep]
      refine ⟨?_, ?_, ?_, ?_⟩
      · intro i hi; exact Option.noConfusion hi
      · intro i hi
        rcases List.mem_cons.mp hi with rfl | hmem
        · exact h1 i ha
        · exact h2 i hmem
      · intro i hi; exact h3 i hi
      · intro i hi
        obtain ⟨hb, hab, hcomp⟩ := hi
        exfalso
        have hne : i ≠ a := fun hx => hab (hx ▸ List.mem_cons_self a s.aborted)
        have hnm : i ∉ s.aborted := fun hx => hab (List.mem_cons_of_mem a hx)
        have := h4 i ⟨hb, hnm, hcomp⟩
        rw [ha] at this
        exact hne (Option.some.injEq _ _ ▸ this.symm)
  | finish id =>
    by_cases ha : s.active = some id
    · have hstep : relayStep s (RelayCmd.finish id) =
          { s with active := none, completed := id :: s.completed } := by
        simp [relayStep, sessionFinally, ha]
      rw [hstep]
      refine ⟨?_, ?_, ?_, ?_⟩
      · intro i hi; exact Option.noConfusion hi
      · intro i hi; exact h2 i hi
      · intro i hi
        rcases List.mem_cons.mp hi with rfl | hmem
        · exact h1 i ha
        · exact h3 i hmem
      · intro i hi
        obtain ⟨hb, hab, hcomp⟩ := hi
        exfalso
        have hne : i ≠ id := fun hx => hcomp (hx ▸ List.mem_cons_self id s.completed)
        have hnm : i ∉ s.completed := fun hx => hcomp (List.mem_cons_of_mem id hx)
        have := h4 i ⟨hb, hab, hnm⟩
        rw [ha] at this
        exact hne (Option.some.injEq _ _ ▸ this.symm)
    · have hstep : relayStep s (RelayCmd.finish id) = s := by
        simp [relayStep, sessionFinally, ha]
      rw [hstep]
      exact ⟨h1, h2, h3, h4⟩

lemma relayInv_foldl (cmds : List RelayCmd) : ∀ s, RelayInv s →
    RelayInv (cmds.foldl relayStep s) := by
  induction cmds with
  | nil => intro s h; exact h
  | cons c rest ih =>
    intro s h
    exact ih (relayStep s c) (relayInv_step s c h)

lemma relayInv_run (cmds : List RelayCmd) : RelayInv (relayRun cmds) :=
  relayInv_foldl cmds relayInit relayInv_init

lemma aborted_mono_step (s : RelayState) (c : RelayCmd) (i : Nat) (h : i ∈ s.aborted) :
    i ∈ (relayStep s c).aborted := by
  cases c with
  | send =>
    simp only [relayStep, sendStart]
    cases s.active with
    | none => exact h
    | some a => exact List.mem_cons_of_mem a h
  | abortChat =>
    simp only [relayStep, chatAbort]
    cases s.active with
    | none => exact h
    | some a => exact List.mem_cons_of_mem a h
  | finish id =>
    simp only [relayStep, sessionFinally]
    by_cases ha : s.active = some id
    · rw [if_pos ha]; exact h
    · rw [if_neg ha]; exact h

lemma aborted_mono_foldl (cmds : List RelayCmd) : ∀ s i, i ∈ s.aborted →
    i ∈ (cmds.foldl relayStep s).aborted := by
  induction cmds with
  | nil => intro s i h; exact h
  | cons c rest ih =>
    intro s i h
    exact ih (relayStep s c) i (aborted_mono_step s c i h)

/-- C6: in every reachable relay state at most one session is
non-terminal; a new request aborts the prior active controller before the
fresh controller is installed, so the superseded session can deliver no
further event in any later state; the explicit abort handler terminates
the active session, always returns true, and is a no-op (still returning
true) when no session is active. -/
theorem claim_C6_supersede :
    (∀ cmds i j, nonTerminal (relayRun cmds) i → nonTerminal (relayRun cmds) j → i = j) ∧
    (∀ cmds i, (relayRun cmds).active = some i →
      i ∈ (sendStart (relayRun cmds)).1.aborted ∧
      ¬ canDeliver (sendStart (relayRun cmds)).1 i ∧
      (sendStart (relayRun cmds)).1.active ≠ some i ∧
      (∀ more : List RelayCmd,
        ¬ canDeliver (more.foldl relayStep (sendStart (relayRun cmds)).1) i)) ∧
    (∀ s i, s.active = some i →
      (chatAbort s).2 = true ∧ (chatAbort s).1.active = none ∧ i ∈ (chatAbort s).1.aborted) ∧
    (∀ s, s.active = none → chatAbort s = (s, true)) := by
  refine ⟨?_, ?_, ?_, ?_⟩
  · intro cmds i j hi hj
    have hinv := relayInv_run cmds
    have h1 := hinv.2.2.2 i hi
    have h2 := hinv.2.2.2 j hj
    rw [h1] at h2
    exact Option.some.inj h2
  · intro cmds i hact
    have hinv := relayInv_run cmds
    have hmem : i ∈ (sendStart (relayRun cmds)).1.aborted := by
      simp only [sendStart, hact]
      exact List.mem_cons_self i _
    refine ⟨hmem, fun hcd => hcd.1 hmem, ?_, ?_⟩
    · have hlt := hinv.1 i hact
      simp only [sendStart]
      intro hx
      simp only [Option.some.injEq] at hx
      omega
    · intro more hcd
      exact hcd.1 (aborted_mono_foldl more _ i hmem)
  · intro s i hact
    refine ⟨?_, ?_, ?_⟩ <;> simp [chatAbort, hact]
  · intro s hact
    simp [chatAbort, hact]

/-- Witness for C6: a second send supersedes the first session, which
stays undeliverable ever after, and abort on the idle relay is a no-op
returning true. -/
theorem claim_C6_witness :
    (0 ∈ (sendStart (relayRun [RelayCmd.send])).1.aborted ∧
     ¬ canDeliver (sendStart (relayRun [RelayCmd.send])).1 0) ∧
    chatAbort relayInit = (relayInit, true) :=
  ⟨⟨(claim_C6_supersede.2.1 [RelayCmd.send] 0 rfl).1,
    (claim_C6_supersede.2.1 [RelayCmd.send] 0 rfl).2.1⟩,
   claim_C6_supersede.2.2.2 relayInit rfl⟩

-- ════════════════════════════════════════════════════════════════════
-- Helper lemmas: license validation
-- ════════════════════════════════════════════════════════════════════

lemma char_toUpper_ne_dash_of_ne (d : Char) (h : d ≠ '-') : Char.toUpper d ≠ '-' := by
  by_cases hl : 97 ≤ d.toNat ∧ d.toNat ≤ 122
  · have h1 : Char.toUpper d = Char.ofNat (d.toNat - 32) := by
      unfold Char.toUpper; rw [if_pos hl]
    have hv : Nat.isValidChar (d.toNat - 32) := Or.inl (by omega)
    have ht : (Char.toUpper d).toNat = d.toNat - 32 := by rw [h1]; exact char_toNat_ofNat _ hv
    intro hx
    have h45 : (Char.toUpper d).toNat = 45 := by rw [hx]; rfl
    omega
  · rw [char_toUpper_eq_self d hl]; exact h

lemma upperL_dash_cons (Y : List Char) : upperL ('-' :: Y) = '-' :: upperL Y := rfl

lemma lowerL_upperL_hex (X : List Char) (h : ∀ c ∈ X, isHexLowerChar c = true) :
    lowerL (upperL X) = X := by
  simp only [lowerL, upperL, List.map_map]
  calc X.map (Char.toLower ∘ Char.toUpper)
      = X.map id := List.map_congr_left (fun c hc => hex_toLower_toUpper c (h c hc))
    _ = X := List.map_id X

lemma activate_of_format_invalid (f : List Char → List Char) (st : LicenseState) (now : Nat)
    (key : List Char) (h : (validateFormat (upperL (trimL key))).valid = false) :
    activate f st now key = (validateFormat (upperL (trimL key)), st) := by
  unfold activate
  rw [if_pos h]

lemma activate_of_sig_invalid (f : List Char → List Char) (st : LicenseState) (now : Nat)
    (key : List Char) (h1 : (validateFormat (upperL (trimL key))).valid = true)
    (h2 : (validateSignature f (upperL (trimL key))).valid = false) :
    activate f st now key =
      ({ valid := false, tier := none, error := some "Ungueltiger Lizenzschluessel" }, st) := by
  unfold activate
  rw [if_neg (by simp [h1]), if_pos h2]

lemma activate_of_valid (f : List Char → List Char) (st : LicenseState) (now : Nat)
    (key : List Char) (h1 : (validateFormat (upperL (trimL key))).valid = true)
    (h2 : (validateSignature f (upperL (trimL key))).valid = true) :
    activate f st now key =
      ({ valid := true, tier := some "pro", error := none },
       { store := some { key := upperL (trimL key), tier := "pro", activatedAt := now }
         disk := some { key := upperL (trimL key), tier := "pro", activatedAt := now } }) := by
  unfold activate
  rw [if_neg (by simp [h1]), if_neg (by simp [h2])]

lemma activate_valid_split (f : List Char → List Char) (st : LicenseState) (now : Nat)
    (key : List Char) (h : (activate f st now key).1.valid = true) :
    (validateFormat (upperL (trimL key))).valid = true ∧
    (validateSignature f (upperL (trimL key))).valid = true := by
  by_cases h1 : (validateFormat (upperL (trimL key))).valid = false
  · rw [activate_of_format_invalid f st now key h1] at h
    simp only at h
    rw [h] at h1
    exact absurd h1 (by simp)
  · have h1t : (validateFormat (upperL (trimL key))).valid = true := by
      cases hx : (validateFormat (upperL (trimL key))).valid
      · exact absurd hx h1
      · rfl
    by_cases h2 : (validateSignature f (upperL (trimL key))).valid = false
    · rw [activate_of_sig_invalid f st now key h1t h2] at h
      simp at h
    · have h2t : (validateSignature f (upperL (trimL key))).valid = true := by
        cases hx : (validateSignature f (upperL (trimL key))).valid
        · exact absurd hx h2
        · rfl
      exact ⟨h1t, h2t⟩

lemma generateKey_eq_shape (f : List Char → List Char) (payload : List Char) :
    generateKey f payload =
      "DOCMIND".data ++ '-' :: ("PRO".data ++ '-' ::
        (payload ++ '-' :: upperL ((f ("DOCMIND-PRO-".data ++ payload)).take 8))) := rfl

lemma joinDash_docmind_pro (p : List Char) :
    joinDash ["DOCMIND".data, "PRO".data, p] = "DOCMIND-PRO-".data ++ p := rfl

lemma generateKey_sig_ne_nil (f : List Char → List Char) (hd : HexDigestFn f)
    (payload : List Char) :
    upperL ((f ("DOCMIND-PRO-".data ++ payload)).take 8) ≠ [] := by
  intro hx
  have hlen : (upperL ((f ("DOCMIND-PRO-".data ++ payload)).take 8)).length = 8 := by
    simp only [upperL, List.length_map, List.length_take,
      (hd ("DOCMIND-PRO-".data ++ payload)).2]
    decide
  rw [hx] at hlen
  simp at hlen

lemma generateKey_trim_fixed (f : List Char → List Char) (hd : HexDigestFn f)
    (payload : List Char) :
    trimL (generateKey f payload) = generateKey f payload := by
  apply trimL_eq_self
  · intro c hc
    have hh : (generateKey f payload).head? = some 'D' := rfl
    rw [hh] at hc
    rw [← Option.some.inj hc]
    rfl
  · intro c hc
    have hshape : generateKey f payload =
        ("DOCMIND-PRO-".data ++ payload ++ ['-']) ++
          upperL ((f ("DOCMIND-PRO-".data ++ payload)).take 8) := by
      simp [generateKey, List.append_assoc]
    rw [hshape, List.getLast?_append] at hc
    set sig := upperL ((f ("DOCMIND-PRO-".data ++ payload)).take 8) with hsigdef
    cases hsg : sig.getLast? with
    | none =>
      exfalso
      exact generateKey_sig_ne_nil f hd payload (List.getLast?_eq_none_iff.mp hsg)
    | some w =>
      rw [hsg] at hc
      simp only [Option.or_some, Option.some.injEq] at hc
      subst hc
      have hw : w ∈ sig := List.mem_of_mem_getLast? (Option.mem_def.mpr hsg)
      rw [hsigdef] at hw
      simp only [upperL, List.mem_map] at hw
      obtain ⟨d, hdm, rfl⟩ := hw
      exact hex_toUpper_not_ws d
        ((hd ("DOCMIND-PRO-".data ++ payload)).1 d (List.mem_of_mem_take hdm))

lemma generateKey_norm_shape (f : List Char → List Char) (hd : HexDigestFn f)
    (payload : List Char) :
    upperL (trimL (generateKey f payload)) =
      "DOCMIND".data ++ '-' :: ("PRO".data ++ '-' ::
        (upperL payload ++ '-' :: upperL ((f ("DOCMIND-PRO-".data ++ payload)).take 8))) := by
  rw [generateKey_trim_fixed f hd payload, generateKey_eq_shape]
  rw [upperL_append, upperL_dash_cons, upperL_append, upperL_dash_cons, upperL_append,
      upperL_dash_cons, upperL_idem]
  rw [show upperL "DOCMIND".data = "DOCMIND".data by decide,
      show upperL "PRO".data = "PRO".data by decide]

lemma generateKey_norm_parts (f : List Char → List Char) (hd : HexDigestFn f)
    (payload : List Char) (hdash : '-' ∉ payload) :
    splitOnDash (upperL (trimL (generateKey f payload))) =
      ["DOCMIND".data, "PRO".data, upperL payload,
       upperL ((f ("DOCMIND-PRO-".data ++ payload)).take 8)] := by
  have hdash2 : '-' ∉ upperL payload := by
    intro hx
    simp only [upperL, List.mem_map] at hx
    obtain ⟨d, hdm, hde⟩ := hx
    exact char_toUpper_ne_dash_of_ne d (fun he => hdash (he ▸ hdm)) hde
  have hdash3 : '-' ∉ upperL ((f ("DOCMIND-PRO-".data ++ payload)).take 8) := by
    intro hx
    simp only [upperL, List.mem_map] at hx
    obtain ⟨d, hdm, hde⟩ := hx
    exact hex_toUpper_ne_dash d
      ((hd ("DOCMIND-PRO-".data ++ payload)).1 d (List.mem_of_mem_take hdm)) hde
  rw [generateKey_norm_shape f hd payload]
  rw [splitOnDash_append_cons _ _ (by decide)]
  rw [splitOnDash_append_cons _ _ (by decide)]
  rw [splitOnDash_append_cons _ _ hdash2]
  rw [splitOnDash_no_dash _ hdash3]

lemma activate_generateKey_valid (f : List Char → List Char) (hd : HexDigestFn f)
    (payload : List Char) (st : LicenseState) (now : Nat)
    (hlen : 6 ≤ payload.length) (hdash : '-' ∉ payload) (hupper : upperL payload = payload) :
    activate f st now (generateKey f payload) =
      ({ valid := true, tier := some "pro", error := none },
       { store := some { key := generateKey f payload, tier := "pro", activatedAt := now }
         disk := some { key := generateKey f payload, tier := "pro", activatedAt := now } }) := by
  have hparts : splitOnDash (upperL (trimL (generateKey f payload))) =
      ["DOCMIND".data, "PRO".data, payload,
       upperL ((f ("DOCMIND-PRO-".data ++ payload)).take 8)] := by
    rw [generateKey_norm_parts f hd payload hdash, hupper]
  have hnorm : upperL (trimL (generateKey f payload)) = generateKey f payload := by
    rw [generateKey_norm_shape f hd payload, hupper, ← generateKey_eq_shape]
  have hfmt : (validateFormat (upperL (trimL (generateKey f payload)))).valid = true := by
    simp only [validateFormat]
    rw [hparts]
    rw [if_neg (by simp), if_neg (by simp), if_neg (by simp; omega)]
  have hX : ∀ c ∈ (f ("DOCMIND-PRO-".data ++ payload)).take 8, isHexLowerChar c = true :=
    fun c hc => (hd ("DOCMIND-PRO-".data ++ payload)).1 c (List.mem_of_mem_take hc)
  have hlow : lowerL (upperL ((f ("DOCMIND-PRO-".data ++ payload)).take 8)) =
      (f ("DOCMIND-PRO-".data ++ payload)).take 8 := lowerL_upperL_hex _ hX
  have hlen8 : ((f ("DOCMIND-PRO-".data ++ payload)).take 8).length = 8 := by
    simp only [List.length_take, (hd ("DOCMIND-PRO-".data ++ payload)).2]
    decide
  have hsig : (validateSignature f (upperL (trimL (generateKey f payload)))).valid = true := by
    simp only [validateSignature]
    rw [hparts]
    rw [show (["DOCMIND".data, "PRO".data, payload,
          upperL ((f ("DOCMIND-PRO-".data ++ payload)).take 8)].getLast?.getD []) =
        upperL ((f ("DOCMIND-PRO-".data ++ payload)).take 8) from rfl]
    rw [show (["DOCMIND".data, "PRO".data, payload,
          upperL ((f ("DOCMIND-PRO-".data ++ payload)).take 8)].dropLast) =
        ["DOCMIND".data, "PRO".data, payload] from rfl]
    rw [joinDash_docmind_pro, hlow, hlen8]
    rw [if_neg (fun hne => hne rfl)]
  rw [activate_of_valid f st now _ hfmt hsig, hnorm]

lemma activate_generateKey_short (f : List Char → List Char) (hd : HexDigestFn f)
    (payload : List Char) (st : LicenseState) (now : Nat) (hdash : '-' ∉ payload)
    (hshort : payload.length < 6) :
    activate f st now (generateKey f payload) =
      ({ valid := false, tier := none, error := some "Schluessel-Segment zu kurz" }, st) := by
  have hparts := generateKey_norm_parts f hd payload hdash
  have hfmt : validateFormat (upperL (trimL (generateKey f payload))) =
      { valid := false, tier := none, error := some "Schluessel-Segment zu kurz" } := by
    simp only [validateFormat]
    rw [hparts]
    rw [if_neg (by simp), if_neg (by simp), if_pos (by simp [upperL]; omega)]
  rw [activate_of_format_invalid f st now _ (by rw [hfmt]), hfmt]

-- ════════════════════════════════════════════════════════════════════
-- Claim C4: license round-trip
-- ════════════════════════════════════════════════════════════════════

/-- A concrete stand-in for the external keyed digest, used to evaluate
the pipeline at closed inputs: a fixed 64-character lowercase hex digest. -/
def hmacMock : List Char → List Char :=
  fun _ => "abcdefabcdefabcdefabcdefabcdefabcdefabcdefabcdefabcdefabcdefabcd".data

lemma hmacMock_hex : HexDigestFn hmacMock := by
  intro m
  refine ⟨fun c hc => ?_, rfl⟩
  have hall : ("abcdefabcdefabcdefabcdefabcdefabcdefabcdefabcdefabcdefabcdefabcd".data).all
      isHexLowerChar = true := by decide
  exact List.all_eq_true.mp hall c hc

/-- C4 amended: the round-trip activate(generateKey(payload)) succeeds
with valid true and tier pro, and getStatus then reports activated and
pro, for every payload of length at least 6 that contains no dash and is
fixed by uppercasing — in particular for the default randomly generated
payload (12 lowercase hex characters, uppercased by generateKey); but the
spec example activate(generateKey(pro)) is rejected with the
key-segment-too-short format error, because generateKey's argument is the
payload, not the tier, and the payload pro has only 3 characters. -/
theorem claim_C4_roundtrip (f : List Char → List Char) (hd : HexDigestFn f)
    (payload : List Char) (st : LicenseState) (now : Nat)
    (hlen : 6 ≤ payload.length) (hdash : '-' ∉ payload) (hupper : upperL payload = payload) :
    ((activate f st now (generateKey f payload)).1 =
        { valid := true, tier := some "pro", error := none } ∧
      (getStatus (activate f st now (generateKey f payload)).2).isActivated = true ∧
      (getStatus (activate f st now (generateKey f payload)).2).tier = "pro") ∧
    (∀ randHex : List Char, 6 ≤ randHex.length →
      (∀ c ∈ randHex, isHexLowerChar c = true) →
      (activate f st now (generateKeyDefault f randHex)).1 =
        { valid := true, tier := some "pro", error := none }) ∧
    (∀ st2 now2, activate f st2 now2 (generateKey f "pro".data) =
      ({ valid := false, tier := none, error := some "Schluessel-Segment zu kurz" }, st2)) := by
  refine ⟨?_, ?_, ?_⟩
  · rw [activate_generateKey_valid f hd payload st now hlen hdash hupper]
    exact ⟨rfl, rfl, rfl⟩
  · intro randHex hrl hrh
    have h1 : 6 ≤ (upperL randHex).length := by simpa [upperL] using hrl
    have h2 : '-' ∉ upperL randHex := by
      intro hx
      simp only [upperL, List.mem_map] at hx
      obtain ⟨d, hdm, hde⟩ := hx
      exact hex_toUpper_ne_dash d (hrh d hdm) hde
    have h3 : upperL (upperL randHex) = upperL randHex := upperL_idem randHex
    rw [show generateKeyDefault f randHex = generateKey f (upperL randHex) from rfl]
    rw [activate_generateKey_valid f hd (upperL randHex) st now h1 h2 h3]
  · intro st2 now2
    exact activate_generateKey_short f hd "pro".data st2 now2 (by decide) (by decide)

/-- C4 counterexample: with a concrete digest function, the spec example
activate(generateKey(pro)) returns valid false with the format error, and
nothing is persisted — the claimed round-trip at payload pro fails. -/
theorem claim_C4_counterexample :
    (activate hmacMock { store := none, disk := none } 0
        (generateKey hmacMock "pro".data)).1.valid = false ∧
    (activate hmacMock { store := none, disk := none } 0
        (generateKey hmacMock "pro".data)).1.error = some "Schluessel-Segment zu kurz" ∧
    (activate hmacMock { store := none, disk := none } 0
        (generateKey hmacMock "pro".data)).2 = { store := none, disk := none } := by
  decide

/-- Witness for C4 amended at a concrete payload and the concrete digest
function. -/
theorem claim_C4_witness :
    (activate hmacMock { store := none, disk := none } 5
        (generateKey hmacMock "ABC123".data)).1 =
      { valid := true, tier := some "pro", error := none } ∧
    (getStatus (activate hmacMock { store := none, disk := none } 5
        (generateKey hmacMock "ABC123".data)).2).tier = "pro" ∧
    (activate hmacMock { store := none, disk := none } 5
        (generateKeyDefault hmacMock "a1b2c3d4e5f6".data)).1 =
      { valid := true, tier := some "pro", error := none } ∧
    activate hmacMock { store := none, disk := none } 6 (generateKey hmacMock "pro".data) =
      ({ valid := false, tier := none, error := some "Schluessel-Segment zu kurz" },
       { store := none, disk := none }) :=
  ⟨(claim_C4_roundtrip hmacMock hmacMock_hex "ABC123".data { store := none, disk := none } 5
      (by decide) (by decide) (by decide)).1.1,
   (claim_C4_roundtrip hmacMock hmacMock_hex "ABC123".data { store := none, disk := none } 5
      (by decide) (by decide) (by decide)).1.2.2,
   (claim_C4_roundtrip hmacMock hmacMock_hex "ABC123".data { store := none, disk := none } 5
      (by decide) (by decide) (by decide)).2.1 "a1b2c3d4e5f6".data (by decide) (by
        have hall : ("a1b2c3d4e5f6".data).all isHexLowerChar = true := by decide
        exact fun c hc => List.all_eq_true.mp hall c hc),
   (claim_C4_roundtrip hmacMock hmacMock_hex "ABC123".data { store := none, disk := none } 5
      (by decide) (by decide) (by decide)).2.2 { store := none, disk := none } 6⟩

-- ════════════════════════════════════════════════════════════════════
-- Claim C5: tamper rejection
-- ════════════════════════════════════════════════════════════════════

lemma validateFormat_valid_elim (k : List Char) (h : (validateFormat k).valid = true) :
    4 ≤ (splitOnDash k).length ∧ (splitOnDash k).getD 0 [] = "DOCMIND".data ∧
    (splitOnDash k).getD 1 [] = "PRO".data ∧ 6 ≤ ((splitOnDash k).getD 2 []).length := by
  simp only [validateFormat] at h
  split_ifs at h with h1 h2 h3
  push_neg at h1
  push_neg at h2
  push_neg at h3
  exact ⟨by omega, h1.2, h2, by omega⟩

lemma validateSignature_valid_elim (f : List Char → List Char) (k : List Char)
    (h : (validateSignature f k).valid = true) :
    lowerL ((splitOnDash k).getLast?.getD []) =
      (f (joinDash (splitOnDash k).dropLast)).take
        (lowerL ((splitOnDash k).getLast?.getD [])).length := by
  simp only [validateSignature] at h
  split_ifs at h with h1
  exact not_not.mp h1

/-- A key obtained from the normalized form of a previously entered key
by replacing character i of its signature segment with c. -/
def flipSig (key : List Char) (i : Nat) (c : Char) : List Char :=
  joinDash (splitOnDash (upperL (trimL key))).dropLast ++
    '-' :: ((splitOnDash (upperL (trimL key))).getLast?.getD []).set i c

lemma flipSig_rejected_core (f : List Char → List Char) (hd : HexDigestFn f)
    (st2 : LicenseState) (now2 : Nat)
    (a : List Char) (t4 : List (List Char)) (b : List Char)
    (parts : List (List Char)) (sig : List Char) (i : Nat) (c : Char)
    (hpeq : parts = "DOCMIND".data :: "PRO".data :: a :: b :: t4)
    (halen : 6 ≤ a.length)
    (hnodash : ∀ p ∈ parts, '-' ∉ p)
    (hfixed : ∀ p ∈ parts, ∀ w ∈ p, Char.toUpper w = w)
    (hsig : parts.getLast?.getD [] = sig)
    (hlowsig : lowerL sig =
      (f (joinDash parts.dropLast)).take (lowerL sig).length)
    (hi : i < sig.length)
    (hc1 : Char.toUpper c ≠ '-')
    (hc2 : c.isWhitespace = false)
    (hc3 : Char.toLower (Char.toUpper c) ≠ Char.toLower (sig.getD i ' ')) :
    activate f st2 now2 (joinDash parts.dropLast ++ '-' :: sig.set i c) =
      ({ valid := false, tier := none, error := some "Ungueltiger Lizenzschluessel" }, st2) := by
  -- basic membership facts about the signature segment
  have hpne : parts ≠ [] := by rw [hpeq]; simp
  have hsig_mem : sig ∈ parts := by
    cases hg : parts.getLast? with
    | none => exact absurd (List.getLast?_eq_none_iff.mp hg) hpne
    | some x =>
      have : sig = x := by rw [← hsig, hg]; rfl
      rw [this]
      exact List.mem_of_mem_getLast? (Option.mem_def.mpr hg)
  have hsig_nodash : '-' ∉ sig := hnodash sig hsig_mem
  have hsig_fixed : ∀ w ∈ sig, Char.toUpper w = w := hfixed sig hsig_mem
  have hsighex : ∀ w ∈ sig, isHexLowerChar (Char.toLower w) = true := by
    intro w hw
    have h1 : Char.toLower w ∈ lowerL sig := List.mem_map_of_mem Char.toLower hw
    rw [hlowsig] at h1
    exact (hd (joinDash parts.dropLast)).1 (Char.toLower w) (List.mem_of_mem_take h1)
  have hsig_not_ws : ∀ w ∈ sig, w.isWhitespace = false := by
    intro w hw
    cases hws : w.isWhitespace with
    | false => rfl
    | true =>
      have := ws_toLower_not_hex w hws
      rw [hsighex w hw] at this
      exact absurd this (by simp)
  -- the dropLast of the parts, in explicit shape
  have hps_shape : parts.dropLast =
      "DOCMIND".data :: "PRO".data :: a :: (b :: t4).dropLast := by
    rw [hpeq]
    rfl
  have hps_ne : parts.dropLast ≠ [] := by rw [hps_shape]; simp
  have hps_nodash : ∀ p ∈ parts.dropLast, '-' ∉ p :=
    fun p hp => hnodash p (List.dropLast_subset parts hp)
  have hps_fixed : ∀ p ∈ parts.dropLast, ∀ w ∈ p, Char.toUpper w = w :=
    fun p hp => hfixed p (List.dropLast_subset parts hp)
  -- the flipped signature segment
  have hset_len : (sig.set i c).length = sig.length := List.length_set sig i c
  have hset_ne_nil : sig.set i c ≠ [] := by
    intro hx
    rw [← List.length_eq_zero, hset_len] at hx
    omega
  have hset_nodash : '-' ∉ sig.set i (Char.toUpper c) := by
    intro hx
    rcases List.mem_or_eq_of_mem_set hx with hm | he
    · exact hsig_nodash hm
    · exact hc1 he.symm
  -- step 1: trimming the flipped key is the identity
  have htrim : trimL (joinDash parts.dropLast ++ '-' :: sig.set i c) =
      joinDash parts.dropLast ++ '-' :: sig.set i c := by
    apply trimL_eq_self
    · intro w hw
      rw [hps_shape] at hw
      rw [joinDash_cons_cons] at hw
      have : (("DOCMIND".data ++
          '-' :: joinDash ("PRO".data :: a :: (b :: t4).dropLast)) ++
          '-' :: sig.set i c).head? = some 'D' := rfl
      rw [this] at hw
      rw [← Option.some.inj hw]
      rfl
    · intro w hw
      have hre : joinDash parts.dropLast ++ '-' :: sig.set i c =
          (joinDash parts.dropLast ++ ['-']) ++ sig.set i c := by
        simp [List.append_assoc]
      rw [hre, List.getLast?_append] at hw
      cases hg : (sig.set i c).getLast? with
      | none => exact absurd (List.getLast?_eq_none_iff.mp hg) hset_ne_nil
      | some x =>
        rw [hg] at hw
        simp only [Option.or_some, Option.some.injEq] at hw
        subst hw
        have hx : x ∈ sig.set i c := List.mem_of_mem_getLast? (Option.mem_def.mpr hg)
        rcases List.mem_or_eq_of_mem_set hx with hm | he
        · exact hsig_not_ws x hm
        · rw [he]; exact hc2
  -- step 2: uppercasing the flipped key
  have hupperJ : upperL (joinDash parts.dropLast) = joinDash parts.dropLast := by
    apply upperL_eq_self_of_fixed
    intro w hw
    rcases mem_joinDash w parts.dropLast hw with rfl | ⟨p, hp, hwp⟩
    · rfl
    · exact hps_fixed p hp w hwp
  have hupperS : upperL sig = sig := upperL_eq_self_of_fixed sig hsig_fixed
  have hupper2 : upperL (trimL (joinDash parts.dropLast ++ '-' :: sig.set i c)) =
      joinDash parts.dropLast ++ '-' :: sig.set i (Char.toUpper c) := by
    rw [htrim, upperL_append, upperL_dash_cons, hupperJ]
    congr 1
    congr 1
    rw [show upperL (sig.set i c) = (upperL sig).set i (Char.toUpper c) from List.map_set]
    rw [hupperS]
  -- step 3: the parts of the normalized flipped key
  have hparts2 : splitOnDash (upperL (trimL (joinDash parts.dropLast ++ '-' :: sig.set i c))) =
      parts.dropLast ++ [sig.set i (Char.toUpper c)] := by
    rw [hupper2]
    exact splitOnDash_join_concat parts.dropLast _ hps_ne hps_nodash hset_nodash
  -- step 4: the format check passes on the flipped key
  have hfmt2 : (validateFormat
      (upperL (trimL (joinDash parts.dropLast ++ '-' :: sig.set i c)))).valid = true := by
    simp only [validateFormat]
    rw [hparts2, hps_shape]
    rw [if_neg (by simp), if_neg (by simp), if_neg (by simp; omega)]
  -- step 5: the signature check fails on the flipped key
  have hlastd : ((parts.dropLast ++ [sig.set i (Char.toUpper c)]).getLast?.getD []) =
      sig.set i (Char.toUpper c) := by
    rw [List.getLast?_concat]
    rfl
  have hdrop2 : (parts.dropLast ++ [sig.set i (Char.toUpper c)]).dropLast = parts.dropLast :=
    List.dropLast_concat
  have hlowlen : (lowerL sig).length = sig.length := List.length_map sig Char.toLower
  have hsetlow : lowerL (sig.set i (Char.toUpper c)) =
      (lowerL sig).set i (Char.toLower (Char.toUpper c)) := List.map_set
  have hsetlowlen : (lowerL (sig.set i (Char.toUpper c))).length = sig.length := by
    rw [hsetlow, List.length_set, hlowlen]
  have hne : lowerL (sig.set i (Char.toUpper c)) ≠
      (f (joinDash parts.dropLast)).take (lowerL (sig.set i (Char.toUpper c))).length := by
    rw [hsetlowlen, ← hlowlen, ← hlowsig, hsetlow]
    intro heq
    have hgd := congrArg (fun l => l.getD i ' ') heq
    simp only at hgd
    have hia : i < ((lowerL sig).set i (Char.toLower (Char.toUpper c))).length := by
      rw [List.length_set, hlowlen]; exact hi
    have hib : i < (lowerL sig).length := by rw [hlowlen]; exact hi
    rw [List.getD_eq_getElem _ ' ' hia, List.getD_eq_getElem _ ' ' hib] at hgd
    rw [List.getElem_set_self] at hgd
    have hmap : (lowerL sig)[i] = Char.toLower (sig.get ⟨i, hi⟩) := by
      simp [lowerL, List.get_eq_getElem]
    rw [hmap] at hgd
    rw [List.getD_eq_getElem _ ' ' hi] at hc3
    exact hc3 hgd
  have hsg2 : (validateSignature f
      (upperL (trimL (joinDash parts.dropLast ++ '-' :: sig.set i c)))).valid = false := by
    simp only [validateSignature]
    rw [hparts2, hlastd, hdrop2]
    rw [if_pos hne]
  exact activate_of_sig_invalid f st2 now2 _ hfmt2 hsg2

/-- C5 amended: for every previously valid key, replacing any single
character of the signature segment of its normalized form by a character
that is not normalized to a dash, is not whitespace, and differs
case-insensitively from the original character, makes activate reject
with the uniform error Ungueltiger Lizenzschluessel (no indication of
which part was wrong) and leaves the stored record unchanged. A
case-only flip is erased by the toUpperCase normalization and still
activates (see the counterexample), so the claim as stated is false. -/
theorem claim_C5_tamper (f : List Char → List Char) (hd : HexDigestFn f)
    (st st2 : LicenseState) (now now2 : Nat) (key : List Char)
    (hvalid : (activate f st now key).1.valid = true)
    (i : Nat) (c : Char)
    (hi : i < ((splitOnDash (upperL (trimL key))).getLast?.getD []).length)
    (hc1 : Char.toUpper c ≠ '-')
    (hc2 : c.isWhitespace = false)
    (hc3 : Char.toLower (Char.toUpper c) ≠
      Char.toLower (((splitOnDash (upperL (trimL key))).getLast?.getD []).getD i ' ')) :
    activate f st2 now2 (flipSig key i c) =
      ({ valid := false, tier := none, error := some "Ungueltiger Lizenzschluessel" }, st2) := by
  obtain ⟨hfmt, hsgv⟩ := activate_valid_split f st now key hvalid
  obtain ⟨hplen, hp0, hp1, hp2⟩ := validateFormat_valid_elim _ hfmt
  have hlowsig := validateSignature_valid_elim f _ hsgv
  obtain ⟨a, b, t4, hpeq⟩ : ∃ a b t4, splitOnDash (upperL (trimL key)) =
      "DOCMIND".data :: "PRO".data :: a :: b :: t4 := by
    cases hq : splitOnDash (upperL (trimL key)) with
    | nil => rw [hq] at hplen; simp at hplen
    | cons p0 t0 =>
      cases t0 with
      | nil => rw [hq] at hplen; simp at hplen
      | cons p1 t1 =>
        cases t1 with
        | nil => rw [hq] at hplen; simp at hplen
        | cons p2 t2 =>
          cases t2 with
          | nil =>
            rw [hq] at hplen
            simp only [List.length_cons, List.length_nil] at hplen
            omega
          | cons p3 t3 =>
            refine ⟨p2, p3, t3, ?_⟩
            rw [hq] at hp0 hp1
            simp only [List.getD_cons_zero, List.getD_cons_succ] at hp0 hp1
            rw [hp0, hp1]
  have hnodash : ∀ p ∈ splitOnDash (upperL (trimL key)), '-' ∉ p :=
    fun p hp => mem_splitOnDash_no_dash _ p hp
  have hfixed : ∀ p ∈ splitOnDash (upperL (trimL key)), ∀ w ∈ p, Char.toUpper w = w :=
    fun p hp w hw =>
      mem_upperL_toUpper_fixed (trimL key) w (mem_of_mem_splitOnDash _ p w hp hw)
  have ha_len : 6 ≤ a.length := by
    rw [hpeq] at hp2
    simpa using hp2
  exact flipSig_rejected_core f hd st2 now2 a t4 b
    (splitOnDash (upperL (trimL key)))
    ((splitOnDash (upperL (trimL key))).getLast?.getD []) i c
    hpeq ha_len hnodash hfixed rfl hlowsig hi hc1 hc2 hc3

/-- C5 counterexample: the key DOCMIND-PRO-ABC123-ABCDEFAB is valid under
the concrete digest; flipping the final signature character B to b (a
single-character change inside the signature segment) yields a different
key string that still activates with valid true — and it persists a
record — because activate uppercases the key before checking. -/
theorem claim_C5_counterexample :
    (activate hmacMock { store := none, disk := none } 0
        "DOCMIND-PRO-ABC123-ABCDEFAB".data).1.valid = true ∧
    "DOCMIND-PRO-ABC123-ABCDEFAb".data ≠ "DOCMIND-PRO-ABC123-ABCDEFAB".data ∧
    (activate hmacMock { store := none, disk := none } 1
        "DOCMIND-PRO-ABC123-ABCDEFAb".data).1.valid = true ∧
    (activate hmacMock { store := none, disk := none } 1
        "DOCMIND-PRO-ABC123-ABCDEFAb".data).2 ≠ { store := none, disk := none } := by
  decide

/-- Witness for C5 amended: flipping the first signature character A of
the valid key to 9 is rejected uniformly and persists nothing. -/
theorem claim_C5_witness :
    activate hmacMock { store := none, disk := none } 1
        (flipSig "DOCMIND-PRO-ABC123-ABCDEFAB".data 0 '9') =
      ({ valid := false, tier := none, error := some "Ungueltiger Lizenzschluessel" },
       { store := none, disk := none }) :=
  claim_C5_tamper hmacMock hmacMock_hex
    { store := none, disk := none } { store := none, disk := none } 0 1
    "DOCMIND-PRO-ABC123-ABCDEFAB".data (by decide) 0 '9'
    (by decide) (by decide) (by decide) (by decide)

-- ════════════════════════════════════════════════════════════════════
-- Claim C9: masked key
-- ════════════════════════════════════════════════════════════════════

lemma containsList_length_le (hay s : List Char) (h : containsList hay s = true) :
    s.length ≤ hay.length := by
  obtain ⟨i, hi, _⟩ := containsList_occurrence hay s ' ' h
  omega

lemma getLastD_mem_splitOnDash (k : List Char) :
    (splitOnDash k).getLast?.getD [] ∈ splitOnDash k := by
  cases hg : (splitOnDash k).getLast? with
  | none => exact absurd (List.getLast?_eq_none_iff.mp hg) (splitOnDash_ne_nil k)
  | some x => exact List.mem_of_mem_getLast? (Option.mem_def.mpr hg)

lemma sig_hex_of_valid (f : List Char → List Char) (hd : HexDigestFn f) (k : List Char)
    (hsgv : (validateSignature f k).valid = true) :
    ∀ w ∈ (splitOnDash k).getLast?.getD [], isHexLowerChar (Char.toLower w) = true := by
  have hlowsig := validateSignature_valid_elim f k hsgv
  intro w hw
  have h1 : Char.toLower w ∈ lowerL ((splitOnDash k).getLast?.getD []) :=
    List.mem_map_of_mem Char.toLower hw
  rw [hlowsig] at h1
  exact (hd (joinDash (splitOnDash k).dropLast)).1 (Char.toLower w) (List.mem_of_mem_take h1)

/-- C9 amended: for every key accepted by activate whose payload segment
contains no dot and is not itself a fragment of the fixed DOCMIND marker,
and whose signature segment has at least 5 characters, the masked key
that getStatus reports contains neither the payload segment nor the
signature segment. A payload of six dots survives the masking as a
substring (see the counterexample), so the claim as stated is false. -/
theorem claim_C9_masked (f : List Char → List Char) (hd : HexDigestFn f) (st : LicenseState)
    (now : Nat) (key : List Char)
    (hvalid : (activate f st now key).1.valid = true)
    (hdot : '.' ∉ (splitOnDash (upperL (trimL key))).getD 2 [])
    (hfrag : containsList "DOCMIND".data ((splitOnDash (upperL (trimL key))).getD 2 []) = false)
    (hsiglen : 5 ≤ ((splitOnDash (upperL (trimL key))).getLast?.getD []).length) :
    (getStatus (activate f st now key).2).key = some (maskKey (upperL (trimL key))) ∧
    containsList (maskKey (upperL (trimL key)))
      ((splitOnDash (upperL (trimL key))).getD 2 []) = false ∧
    containsList (maskKey (upperL (trimL key)))
      ((splitOnDash (upperL (trimL key))).getLast?.getD []) = false := by
  obtain ⟨hfmt, hsgv⟩ := activate_valid_split f st now key hvalid
  obtain ⟨hplen, hp0, hp1, hp2⟩ := validateFormat_valid_elim _ hfmt
  have hsighex := sig_hex_of_valid f hd _ hsgv
  have hsig_nodash : '-' ∉ (splitOnDash (upperL (trimL key))).getLast?.getD [] :=
    mem_splitOnDash_no_dash _ _ (getLastD_mem_splitOnDash _)
  -- decompose the parts
  obtain ⟨a, b, t4, hpeq⟩ : ∃ a b t4, splitOnDash (upperL (trimL key)) =
      "DOCMIND".data :: "PRO".data :: a :: b :: t4 := by
    cases hq : splitOnDash (upperL (trimL key)) with
    | nil => rw [hq] at hplen; simp at hplen
    | cons p0 t0 =>
      cases t0 with
      | nil => rw [hq] at hplen; simp at hplen
      | cons p1 t1 =>
        cases t1 with
        | nil => rw [hq] at hplen; simp at hplen
        | cons p2 t2 =>
          cases t2 with
          | nil =>
            rw [hq] at hplen
            simp only [List.length_cons, List.length_nil] at hplen
            omega
          | cons p3 t3 =>
            refine ⟨p2, p3, t3, ?_⟩
            rw [hq] at hp0 hp1
            simp only [List.getD_cons_zero, List.getD_cons_succ] at hp0 hp1
            rw [hp0, hp1]
  have hpayl : (splitOnDash (upperL (trimL key))).getD 2 [] = a := by rw [hpeq]; rfl
  have halen : 6 ≤ a.length := by rw [hpayl] at hp2; exact hp2
  have hadot : '.' ∉ a := by rw [hpayl] at hdot; exact hdot
  have hafrag : containsList "DOCMIND".data a = false := by rw [hpayl] at hfrag; exact hfrag
  have ha_nodash : '-' ∉ a := by
    apply mem_splitOnDash_no_dash (upperL (trimL key))
    rw [hpeq]
    simp
  -- decompose the payload and its masked fragments
  obtain ⟨c0, c1, c2, c3, c4, c5, prest, haeq⟩ :
      ∃ c0 c1 c2 c3 c4 c5 prest, a = c0 :: c1 :: c2 :: c3 :: c4 :: c5 :: prest := by
    cases a with
    | nil => simp at halen
    | cons c0 t0 =>
      cases t0 with
      | nil => simp at halen
      | cons c1 t1 =>
        cases t1 with
        | nil => simp at halen
        | cons c2 t2 =>
          cases t2 with
          | nil => simp at halen
          | cons c3 t3 =>
            cases t3 with
            | nil => simp at halen
            | cons c4 t5 =>
              cases t5 with
              | nil => simp at halen
              | cons c5 prest => exact ⟨c0, c1, c2, c3, c4, c5, prest, rfl⟩
  have htr_len : (takeRightL 2 a).length = 2 := by
    simp only [takeRightL, List.length_drop]
    omega
  obtain ⟨e1, e2, hte⟩ : ∃ e1 e2, takeRightL 2 a = [e1, e2] :=
    List.length_eq_two.mp htr_len
  have hte_sub : ∀ w ∈ takeRightL 2 a, w ∈ a := fun w hw => List.drop_subset _ a hw
  -- the masked middle, fully explicit
  have hmid : a.take 4 ++ "...".data ++ takeRightL 2 a =
      [c0, c1, c2, c3, '.', '.', '.', e1, e2] := by
    rw [haeq] at hte ⊢
    rw [hte]
    rfl
  -- the masked key and its run shape
  have hmask : maskKey (upperL (trimL key)) =
      "DOCMIND".data ++ '-' :: ("PRO".data ++ '-' ::
        ([c0, c1, c2, c3, '.', '.', '.', e1, e2] ++ '-' :: "****".data)) := by
    simp only [maskKey]
    rw [hpeq]
    rw [if_neg (by simp)]
    have hg2 : (("DOCMIND".data :: "PRO".data :: a :: b :: t4).getD 2 []) = a := rfl
    rw [hg2, hmid]
    rfl
  -- splitting an occurrence into the four dash-free runs
  have hsplit : ∀ s : List Char, '-' ∉ s →
      containsList (maskKey (upperL (trimL key))) s = true →
      containsList "DOCMIND".data s = true ∨ containsList "PRO".data s = true ∨
      containsList [c0, c1, c2, c3, '.', '.', '.', e1, e2] s = true ∨
      containsList "****".data s = true := by
    intro s hs hc
    rw [hmask] at hc
    rcases containsList_append_cons _ _ s hc hs with h1 | h2
    · exact Or.inl h1
    rcases containsList_append_cons _ _ s h2 hs with h3 | h4
    · exact Or.inr (Or.inl h3)
    rcases containsList_append_cons _ _ s h4 hs with h5 | h6
    · exact Or.inr (Or.inr (Or.inl h5))
    · exact Or.inr (Or.inr (Or.inr h6))
  refine ⟨?_, ?_, ?_⟩
  · rw [activate_of_valid f st now key hfmt hsgv]
    rfl
  · -- the payload is not contained in the masked key
    cases hcp : containsList (maskKey (upperL (trimL key)))
        ((splitOnDash (upperL (trimL key))).getD 2 []) with
    | false => rfl
    | true =>
      exfalso
      rw [hpayl] at hcp
      rcases hsplit a ha_nodash hcp with h1 | h2 | h3 | h4
      · rw [h1] at hafrag; exact Bool.noConfusion hafrag
      · have := containsList_length_le _ _ h2
        have h3' : ("PRO".data).length = 3 := rfl
        omega
      · obtain ⟨i, hilen, hpt⟩ := containsList_occurrence _ _ ' ' h3
        have h9 : ([c0, c1, c2, c3, '.', '.', '.', e1, e2] : List Char).length = 9 := rfl
        rw [h9] at hilen
        have hij : i ≤ 3 := by omega
        have hj := hpt (4 - i) (by omega)
        have h4eq : i + (4 - i) = 4 := by omega
        rw [h4eq] at hj
        have hdot4 : ([c0, c1, c2, c3, '.', '.', '.', e1, e2] : List Char).getD 4 ' ' = '.' :=
          rfl
        rw [hdot4] at hj
        have hmem : '.' ∈ a := by
          rw [← hj]
          exact getD_mem_of_lt a (4 - i) ' ' (by omega)
        exact hadot hmem
      · have := containsList_length_le _ _ h4
        have h4' : ("****".data).length = 4 := rfl
        omega
  · -- the signature is not contained in the masked key
    cases hcs : containsList (maskKey (upperL (trimL key)))
        ((splitOnDash (upperL (trimL key))).getLast?.getD []) with
    | false => rfl
    | true =>
      exfalso
      rcases hsplit _ hsig_nodash hcs with h1 | h2 | h3 | h4
      · obtain ⟨i, hilen, hpt⟩ := containsList_occurrence _ _ ' ' h1
        have h7 : ("DOCMIND".data).length = 7 := rfl
        rw [h7] at hilen
        have hij : i ≤ 2 := by omega
        interval_cases i
        · have hj := hpt 1 (by omega)
          have hO : ("DOCMIND".data).getD (0 + 1) ' ' = 'O' := rfl
          rw [hO] at hj
          have hmem : 'O' ∈ (splitOnDash (upperL (trimL key))).getLast?.getD [] := by
            rw [← hj]
            exact getD_mem_of_lt _ 1 ' ' (by omega)
          exact absurd (hsighex 'O' hmem) (by decide)
        · have hj := hpt 0 (by omega)
          have hO : ("DOCMIND".data).getD (1 + 0) ' ' = 'O' := rfl
          rw [hO] at hj
          have hmem : 'O' ∈ (splitOnDash (upperL (trimL key))).getLast?.getD [] := by
            rw [← hj]
            exact getD_mem_of_lt _ 0 ' ' (by omega)
          exact absurd (hsighex 'O' hmem) (by decide)
        · have hj := hpt 1 (by omega)
          have hM : ("DOCMIND".data).getD (2 + 1) ' ' = 'M' := rfl
          rw [hM] at hj
          have hmem : 'M' ∈ (splitOnDash (upperL (trimL key))).getLast?.getD [] := by
            rw [← hj]
            exact getD_mem_of_lt _ 1 ' ' (by omega)
          exact absurd (hsighex 'M' hmem) (by decide)
      · have := containsList_length_le _ _ h2
        have h3' : ("PRO".data).length = 3 := rfl
        omega
      · obtain ⟨i, hilen, hpt⟩ := containsList_occurrence _ _ ' ' h3
        have h9 : ([c0, c1, c2, c3, '.', '.', '.', e1, e2] : List Char).length = 9 := rfl
        rw [h9] at hilen
        have hij : i ≤ 4 := by omega
        have hj := hpt (4 - i) (by omega)
        have h4eq : i + (4 - i) = 4 := by omega
        rw [h4eq] at hj
        have hdot4 : ([c0, c1, c2, c3, '.', '.', '.', e1, e2] : List Char).getD 4 ' ' = '.' :=
          rfl
        rw [hdot4] at hj
        have hmem : '.' ∈ (splitOnDash (upperL (trimL key))).getLast?.getD [] := by
          rw [← hj]
          exact getD_mem_of_lt _ (4 - i) ' ' (by omega)
        exact absurd (hsighex '.' hmem) (by decide)
      · have := containsList_length_le _ _ h4
        have h4' : ("****".data).length = 4 := rfl
        omega

/-- C9 counterexample: the payload of six dots has the enforced minimum
length 6, its key activates, and the masked key getStatus reports
contains the full payload segment as a substring. -/
theorem claim_C9_counterexample :
    ("......".data).length = 6 ∧
    (activate hmacMock { store := none, disk := none } 0
        (generateKey hmacMock "......".data)).1.valid = true ∧
    (getStatus (activate hmacMock { store := none, disk := none } 0
        (generateKey hmacMock "......".data)).2).key =
      some ("DOCMIND-PRO-.........-****".data) ∧
    containsList "DOCMIND-PRO-.........-****".data "......".data = true := by
  decide

/-- Witness for C9 amended at a concrete activated key. -/
theorem claim_C9_witness :
    (getStatus (activate hmacMock { store := none, disk := none } 0
        "DOCMIND-PRO-ABC123-ABCDEFAB".data).2).key =
      some (maskKey (upperL (trimL "DOCMIND-PRO-ABC123-ABCDEFAB".data))) ∧
    containsList (maskKey (upperL (trimL "DOCMIND-PRO-ABC123-ABCDEFAB".data)))
      ((splitOnDash (upperL (trimL "DOCMIND-PRO-ABC123-ABCDEFAB".data))).getD 2 []) = false ∧
    containsList (maskKey (upperL (trimL "DOCMIND-PRO-ABC123-ABCDEFAB".data)))
      ((splitOnDash (upperL
        (trimL "DOCMIND-PRO-ABC123-ABCDEFAB".data))).getLast?.getD []) = false :=
  claim_C9_masked hmacMock hmacMock_hex { store := none, disk := none } 0
    "DOCMIND-PRO-ABC123-ABCDEFAB".data (by decide) (by decide) (by decide) (by decide)

end Docmind
